import Mathlib

/-!
Verification of the anp-ts-sdk identity/key-management engine.

This file shallowly embeds the TypeScript sources `src/anp-key-generator.ts`
and `src/did-auto-config.ts`: pure string/byte manipulation is translated to
executable Lean functions on `String` / `List Nat` (a byte is a `Nat < 256`),
the JS runtime pieces the code leans on (Node `Buffer` base64/base64url
codecs, `bs58`, `JSON.stringify` with an array replacer, SHA-256, UTF-8
encoding) are implemented from their specifications, and the elliptic-curve
primitives from `@noble/ed25519` / `@noble/secp256k1` — external libraries
whose group arithmetic is out of scope — are parameters together with the
contract the SDK relies on.  Randomness (`crypto.randomBytes`,
`utils.randomPrivateKey`) is passed in explicitly, and `new Date()` is an
explicit argument.  Stateful classes become explicit state records with
`Except String` for thrown errors.
-/

/-! ## Bytes and characters -/

/-- The opening brace character. -/
def lbrace : Char := Char.ofNat 123

/-- The closing brace character. -/
def rbrace : Char := Char.ofNat 125

/-! ## base64url (Node `Buffer.toString('base64url')` / `Buffer.from(s,'base64url')`)

Node's base64url encoder emits no padding.  Its decoder maps each alphabet
character to its 6-bit value, ignores characters outside the alphabet, and
drops the trailing bits that do not fill a whole byte. -/

/-- The base64url alphabet. -/
def b64UrlAlphabet : List Char :=
  ['A','B','C','D','E','F','G','H','I','J','K','L','M','N','O','P','Q','R','S','T','U','V','W','X','Y','Z',
   'a','b','c','d','e','f','g','h','i','j','k','l','m','n','o','p','q','r','s','t','u','v','w','x','y','z',
   '0','1','2','3','4','5','6','7','8','9','-','_']

/-- Character for a 6-bit value in the base64url alphabet. -/
def b64Digit (n : Nat) : Char := b64UrlAlphabet.getD n 'A'

/-- base64url-encode a byte list (no padding), three input bytes at a time. -/
def b64urlEncodeChars : List Nat → List Char
  | [] => []
  | [a] => [b64Digit (a / 4), b64Digit (a % 4 * 16)]
  | [a, b] => [b64Digit (a / 4), b64Digit (a % 4 * 16 + b / 16), b64Digit (b % 16 * 4)]
  | a :: b :: c :: rest =>
    b64Digit (a / 4) :: b64Digit (a % 4 * 16 + b / 16) ::
      b64Digit (b % 16 * 4 + c / 64) :: b64Digit (c % 64) :: b64urlEncodeChars rest

/-- Model of `Buffer.from(bytes).toString('base64url')`. -/
def base64urlEncode (bytes : List Nat) : String := String.mk (b64urlEncodeChars bytes)

/-- The 6-bit value of a base64url character; `none` for characters outside the
alphabet (Node's decoder skips those).  The decoder also accepts the two
standard-base64 symbols, as Node's does. -/
def b64Val (c : Char) : Option Nat :=
  if 65 ≤ c.toNat ∧ c.toNat ≤ 90 then some (c.toNat - 65)
  else if 97 ≤ c.toNat ∧ c.toNat ≤ 122 then some (c.toNat - 97 + 26)
  else if 48 ≤ c.toNat ∧ c.toNat ≤ 57 then some (c.toNat - 48 + 52)
  else if c = '-' ∨ c = '+' then some 62
  else if c = '_' ∨ c = '/' then some 63
  else none

/-- Reassemble bytes from a list of 6-bit values, four at a time; a trailing
group of 2 or 3 values yields 1 or 2 bytes, a trailing single value (fewer
than 8 bits) is dropped — Node's decoder semantics. -/
def b64Bytes : List Nat → List Nat
  | a :: b :: c :: d :: rest =>
    (a * 4 + b / 16) :: (b % 16 * 16 + c / 4) :: (c % 4 * 64 + d) :: b64Bytes rest
  | [a, b] => [a * 4 + b / 16]
  | [a, b, c] => [a * 4 + b / 16, b % 16 * 16 + c / 4]
  | _ => []

/-- Model of `Buffer.from(s, 'base64url')` as a byte list. -/
def base64urlDecode (s : String) : List Nat := b64Bytes (s.data.filterMap b64Val)

/-! ## Standard base64 with padding (Node `Buffer.toString('base64')`), used
only for the PEM private-key body. -/

/-- Character for a 6-bit value in the standard base64 alphabet. -/
def b64StdDigit (n : Nat) : Char :=
  (b64UrlAlphabet.take 62 ++ ['+', '/']).getD n 'A'

/-- Standard base64 encoding with `=` padding, three input bytes at a time. -/
def b64StdEncodeChars : List Nat → List Char
  | [] => []
  | [a] => [b64StdDigit (a / 4), b64StdDigit (a % 4 * 16), '=', '=']
  | [a, b] => [b64StdDigit (a / 4), b64StdDigit (a % 4 * 16 + b / 16), b64StdDigit (b % 16 * 4), '=']
  | a :: b :: c :: rest =>
    b64StdDigit (a / 4) :: b64StdDigit (a % 4 * 16 + b / 16) ::
      b64StdDigit (b % 16 * 4 + c / 64) :: b64StdDigit (c % 64) :: b64StdEncodeChars rest

/-- Model of `Buffer.from(bytes).toString('base64')`. -/
def base64StdEncode (bytes : List Nat) : String := String.mk (b64StdEncodeChars bytes)

/-! ## base58 (the `bs58` package, Bitcoin alphabet) -/

/-- The Bitcoin base58 alphabet as a character list. -/
def b58Alphabet : List Char :=
  ['1','2','3','4','5','6','7','8','9',
   'A','B','C','D','E','F','G','H','J','K','L','M','N','P','Q','R','S','T','U','V','W','X','Y','Z',
   'a','b','c','d','e','f','g','h','i','j','k','m','n','o','p','q','r','s','t','u','v','w','x','y','z']

/-- Digit character for a value below 58. -/
def b58Digit (n : Nat) : Char := (b58Alphabet.getD n '1')

/-- Base-58 digits of a natural number, most significant first; `[]` for zero.
Fuel-based so that the recursion is structural (fuel `n` always suffices). -/
def natToB58 : Nat → Nat → List Char
  | 0, _ => []
  | _ + 1, 0 => []
  | fuel + 1, n => natToB58 fuel (n / 58) ++ [b58Digit (n % 58)]

/-- Big-endian byte list to natural number. -/
def bytesToNat (bytes : List Nat) : Nat := bytes.foldl (fun acc b => acc * 256 + b) 0

/-- Count of leading zero bytes. -/
def leadingZeros : List Nat → Nat
  | 0 :: rest => leadingZeros rest + 1
  | _ => 0

/-- Model of `bs58.encode`: one `'1'` per leading zero byte, then the base-58
digits of the remaining big-endian value. -/
def base58Encode (bytes : List Nat) : String :=
  let n := bytesToNat bytes
  String.mk (List.replicate (leadingZeros bytes) '1' ++ natToB58 n n)

/-! ## UTF-16 code units and the JS default sort order

`Array.prototype.sort()` with no comparator sorts strings by their sequences
of UTF-16 code units.  A Lean `Char` is a Unicode scalar value; scalars up to
`0xFFFF` are a single unit, larger ones a surrogate pair. -/

/-- UTF-16 code units of one scalar value. -/
def u16Char (c : Char) : List Nat :=
  if c.toNat < 65536 then [c.toNat]
  else [55296 + (c.toNat - 65536) / 1024, 56320 + (c.toNat - 65536) % 1024]

/-- UTF-16 code units of a string. -/
def u16Units (s : String) : List Nat := s.data.flatMap u16Char

/-- Lexicographic order on code-unit lists. -/
def u16Le : List Nat → List Nat → Bool
  | x :: xs, y :: ys =>
    if x < y then true
    else if y < x then false
    else u16Le xs ys
  | [], _ => true
  | _, _ => false

/-- The order `Array.prototype.sort()` uses on strings. -/
def jsLe (a b : String) : Prop := u16Le (u16Units a) (u16Units b) = true

instance : DecidableRel jsLe := fun a b => by unfold jsLe; infer_instance

/-- Model of `keys.sort()`: JS sort is stable; insertion sort is stable and
agrees with it on the resulting order. -/
def sortKeysJS (l : List String) : List String := List.insertionSort jsLe l

/-! ## UTF-8 (Node `Buffer.from(s, 'utf8')`) -/

/-- UTF-8 bytes of one Unicode scalar value. -/
def utf8Char (c : Char) : List Nat :=
  if c.toNat < 128 then [c.toNat]
  else if c.toNat < 2048 then [192 + c.toNat / 64, 128 + c.toNat % 64]
  else if c.toNat < 65536 then [224 + c.toNat / 4096, 128 + c.toNat / 64 % 64, 128 + c.toNat % 64]
  else [240 + c.toNat / 262144, 128 + c.toNat / 4096 % 64, 128 + c.toNat / 64 % 64, 128 + c.toNat % 64]

/-- Model of `Buffer.from(s, 'utf8')` as a byte list. -/
def utf8Encode (s : String) : List Nat := s.data.flatMap utf8Char

/-! ## SHA-256 (Node `createHash('sha256')`), per FIPS 180-4 -/

/-- Truncate to 32 bits. -/
def w32 (n : Nat) : Nat := n % 4294967296

/-- Right rotation of a 32-bit word. -/
def rotr (k n : Nat) : Nat := w32 (n / 2 ^ k + n % 2 ^ k * 2 ^ (32 - k))

/-- Bitwise complement of a 32-bit word. -/
def not32 (n : Nat) : Nat := 4294967295 - w32 n

/-- SHA-256 round constants. -/
def sha256K : List Nat :=
  [1116352408, 1899447441, 3049323471, 3921009573, 961987163, 1508970993,
   2453635748, 2870763221, 3624381080, 310598401, 607225278, 1426881987,
   1925078388, 2162078206, 2614888103, 3248222580, 3835390401, 4022224774,
   264347078, 604807628, 770255983, 1249150122, 1555081692, 1996064986,
   2554220882, 2821834349, 2952996808, 3210313671, 3336571891, 3584528711,
   113926993, 338241895, 666307205, 773529912, 1294757372, 1396182291,
   1695183700, 1986661051, 2177026350, 2456956037, 2730485921, 2820302411,
   3259730800, 3345764771, 3516065817, 3600352804, 4094571909, 275423344,
   430227734, 506948616, 659060556, 883997877, 958139571, 1322822218,
   1537002063, 1747873779, 1955562222, 2024104815, 2227730452, 2361852424,
   2428436474, 2756734187, 3204031479, 3329325298]

/-- Working state: eight 32-bit words. -/
structure Sha8 where
  a : Nat
  b : Nat
  c : Nat
  d : Nat
  e : Nat
  f : Nat
  g : Nat
  h : Nat

/-- SHA-256 initial hash value. -/
def sha256Init : Sha8 :=
  ⟨1779033703, 3144134277, 1013904242, 2773480762,
   1359893119, 2600822924, 528734635, 1541459225⟩

/-- The first 16 message-schedule words of a 64-byte block (big-endian). -/
def blockWords : List Nat → List Nat
  | a :: b :: c :: d :: rest => (a * 16777216 + b * 65536 + c * 256 + d) :: blockWords rest
  | _ => []

/-- Extend a 16-word schedule to 64 words.  The counter is the number of words
still to append. -/
def extendWords : Nat → List Nat → List Nat
  | 0, ws => ws
  | k + 1, ws =>
    let wa := ws.getD (ws.length - 2) 0
    let wb := ws.getD (ws.length - 7) 0
    let wc := ws.getD (ws.length - 15) 0
    let wd := ws.getD (ws.length - 16) 0
    let s0 := (rotr 7 wc) ^^^ (rotr 18 wc) ^^^ (wc / 2 ^ 3)
    let s1 := (rotr 17 wa) ^^^ (rotr 19 wa) ^^^ (wa / 2 ^ 10)
    extendWords k (ws ++ [w32 (wd + s0 + wb + s1)])

/-- One compression round for a schedule word paired with its round constant. -/
def sha256Round (st : Sha8) (kw : Nat × Nat) : Sha8 :=
  let S1 := (rotr 6 st.e) ^^^ (rotr 11 st.e) ^^^ (rotr 25 st.e)
  let ch := (st.e &&& st.f) ^^^ (not32 st.e &&& st.g)
  let t1 := w32 (st.h + S1 + ch + kw.1 + kw.2)
  let S0 := (rotr 2 st.a) ^^^ (rotr 13 st.a) ^^^ (rotr 22 st.a)
  let mj := (st.a &&& st.b) ^^^ (st.a &&& st.c) ^^^ (st.b &&& st.c)
  let t2 := w32 (S0 + mj)
  ⟨w32 (t1 + t2), st.a, st.b, st.c, w32 (st.d + t1), st.e, st.f, st.g⟩

/-- Compress one 64-byte block into the running hash. -/
def sha256Block (hs : Sha8) (block : List Nat) : Sha8 :=
  let ws := extendWords 48 (blockWords block)
  let st := (sha256K.zip ws).foldl (fun st kw => sha256Round st (kw.1, kw.2)) hs
  ⟨w32 (hs.a + st.a), w32 (hs.b + st.b), w32 (hs.c + st.c), w32 (hs.d + st.d),
   w32 (hs.e + st.e), w32 (hs.f + st.f), w32 (hs.g + st.g), w32 (hs.h + st.h)⟩

/-- Fold the padded message 64 bytes at a time; fuel is the byte count, which
always suffices. -/
def sha256Blocks : Nat → Sha8 → List Nat → Sha8
  | _, hs, [] => hs
  | 0, hs, _ => hs
  | fuel + 1, hs, bytes => sha256Blocks fuel (sha256Block hs (bytes.take 64)) (bytes.drop 64)

/-- Big-endian bytes of a value, fixed width. -/
def beBytes : Nat → Nat → List Nat
  | 0, _ => []
  | k + 1, n => beBytes k (n / 256) ++ [n % 256]

/-- SHA-256 padding: `0x80`, zeros to 56 mod 64, then the bit length as eight
big-endian bytes. -/
def sha256Pad (msg : List Nat) : List Nat :=
  msg ++ 128 :: List.replicate ((64 - (msg.length + 9) % 64) % 64) 0 ++ beBytes 8 (msg.length * 8)

/-- Model of `createHash('sha256').update(m).digest()` on byte lists. -/
def sha256 (msg : List Nat) : List Nat :=
  let padded := sha256Pad msg
  let hs := sha256Blocks padded.length sha256Init padded
  beBytes 4 hs.a ++ beBytes 4 hs.b ++ beBytes 4 hs.c ++ beBytes 4 hs.d ++
    beBytes 4 hs.e ++ beBytes 4 hs.f ++ beBytes 4 hs.g ++ beBytes 4 hs.h

/-- The digest always has 32 bytes — the "32-byte digest" of the contract. -/
theorem sha256_length (msg : List Nat) : (sha256 msg).length = 32 := by
  simp [sha256, beBytes]

/-- Every digest entry is a byte. -/
theorem sha256_bytes (msg : List Nat) : ∀ x ∈ sha256 msg, x < 256 := by
  have hb : ∀ k n, ∀ x ∈ beBytes k n, x < 256 := by
    intro k
    induction k with
    | zero => intro n x hx; simp [beBytes] at hx
    | succ k ih =>
      intro n x hx
      simp only [beBytes, List.mem_append, List.mem_singleton] at hx
      rcases hx with hx | hx
      · exact ih _ x hx
      · omega
  intro x hx
  simp only [sha256, List.mem_append] at hx
  rcases hx with ((((((hx | hx) | hx) | hx) | hx) | hx) | hx) | hx <;> exact hb _ _ x hx

/-! ## JSON values and `JSON.stringify(value, replacerArray)`

`jcsCanonicalize` (anp-key-generator.ts line 337) is
`JSON.stringify(obj, Object.keys(obj).sort())`.  Per ECMA-262, when the
replacer is an array it becomes the *PropertyList*: at **every** object level
the serializer iterates the PropertyList (not the object's own keys) and
serializes exactly the properties named there, in PropertyList order; array
elements are serialized unconditionally.  The value model is first-order so
every function on it is structural and kernel-computable: `lcons`/`lnil`
spell array element lists, `fcons`/`fnil` spell object field lists. -/

inductive J : Type where
  | null : J
  | jbool : Bool → J
  | jnum : Int → J
  | jstr : String → J
  | jarr : J → J
  | jobj : J → J
  | lnil : J
  | lcons : J → J → J
  | fnil : J
  | fcons : String → J → J → J
deriving DecidableEq

/-- Object fields from an association list. -/
def fieldsOf : List (String × J) → J
  | [] => .fnil
  | (k, v) :: rest => .fcons k v (fieldsOf rest)

/-- Array elements from a list. -/
def elemsOf : List J → J
  | [] => .lnil
  | x :: rest => .lcons x (elemsOf rest)

/-- Structural size, used as serializer fuel. -/
def jsize : J → Nat
  | .null | .jbool _ | .jnum _ | .jstr _ | .lnil | .fnil => 1
  | .jarr xs => 1 + jsize xs
  | .jobj fs => 1 + jsize fs
  | .lcons h t => 1 + jsize h + jsize t
  | .fcons _ v t => 1 + jsize v + jsize t

/-- Property access on an object's field list (JS object keys are unique; on a
duplicate the first binding wins, matching insertion-order access). -/
def lookupF (k : String) : J → Option J
  | .fcons k' v rest => if k' == k then some v else lookupF k rest
  | _ => none

/-- Own enumerable keys of an object's field list, in insertion order. -/
def keysF : J → List String
  | .fcons k _ rest => k :: keysF rest
  | _ => []

/-- Model of `Object.keys`. -/
def objectKeys : J → List String
  | .jobj fs => keysF fs
  | _ => []

/-- The lowercase hexadecimal digits, as V8 prints `\u00xx` escapes. -/
def hexChars : List Char := "0123456789abcdef".data

/-- Digit character for a value below 16. -/
def hexDigit (n : Nat) : Char := hexChars.getD n '0'

/-- JSON string escaping of one character, per ECMA-262 *QuoteJSONString*:
quote and backslash get a backslash escape, the five named control characters
get their short escapes, other control characters become `\u00xx`, everything
else stands for itself (Lean `Char` excludes lone surrogates). -/
def escChar (c : Char) : List Char :=
  if c = '"' then ['\\', '"']
  else if c = '\\' then ['\\', '\\']
  else if c.toNat = 8 then ['\\', 'b']
  else if c.toNat = 9 then ['\\', 't']
  else if c.toNat = 10 then ['\\', 'n']
  else if c.toNat = 12 then ['\\', 'f']
  else if c.toNat = 13 then ['\\', 'r']
  else if c.toNat < 32 then ['\\', 'u', '0', '0', hexDigit (c.toNat / 16), hexDigit (c.toNat % 16)]
  else [c]

/-- JSON escaping of a character list. -/
def escape (cs : List Char) : List Char := cs.flatMap escChar

/-- Model of *QuoteJSONString*: a double-quoted, escaped string. -/
def jsonQuote (s : String) : List Char := '"' :: escape s.data ++ ['"']

/-- The serializer of `JSON.stringify(value, K)` with empty gap, fuel-indexed;
fuel `jsize j` always suffices.  On `jobj` it iterates `K` and keeps exactly
the properties present, on `jarr` it serializes every element. -/
def serialize : Nat → List String → J → List Char
  | 0, _, _ => []
  | f + 1, K, v =>
    match v with
    | .null => ['n','u','l','l']
    | .jbool true => ['t','r','u','e']
    | .jbool false => ['f','a','l','s','e']
    | .jnum n => (toString n).data
    | .jstr s => jsonQuote s
    | .jarr xs => '[' :: serialize f K xs ++ [']']
    | .jobj fs =>
      lbrace :: (List.intercalate [','] (K.filterMap (fun k =>
        (lookupF k fs).map (fun v' => jsonQuote k ++ ':' :: serialize f K v')))) ++ [rbrace]
    | .lnil => []
    | .lcons x rest =>
      match rest with
      | .lnil => serialize f K x
      | _ => serialize f K x ++ ',' :: serialize f K rest
    | .fnil => []
    | .fcons _ _ _ => []

/-- Model of `ANPKeyGenerator.jcsCanonicalize`:
`JSON.stringify(obj, Object.keys(obj).sort())`. -/
def jcsCanonicalize (j : J) : String :=
  String.mk (serialize (jsize j) (sortKeysJS (objectKeys j)) j)

/-! ## Injectivity of the character-level codecs

UTF-8 and UTF-16 are prefix codes on Unicode scalar values, and JSON string
escaping is a prefix code on characters; injectivity of each flat encoding
follows from one generic lemma. -/

/-- Characters with equal code points are equal. -/
theorem charToNat_inj {a b : Char} (h : a.toNat = b.toNat) : a = b :=
  Char.ext (UInt32.ext h)

/-- A Lean character is a Unicode scalar value: below the surrogate range or
above it and below `0x110000`. -/
theorem char_toNat_valid (c : Char) :
    c.toNat < 55296 ∨ (57343 < c.toNat ∧ c.toNat < 1114112) := c.valid

/-- A per-symbol prefix code gives an injective concatenated encoding. -/
theorem flatMap_enc_inj {α β : Type} (enc : α → List β)
    (hne : ∀ a, enc a ≠ []) (hpre : ∀ a b, enc a <+: enc b → a = b) :
    ∀ l1 l2 : List α, l1.flatMap enc = l2.flatMap enc → l1 = l2 := by
  intro l1
  induction l1 with
  | nil =>
    intro l2 h
    cases l2 with
    | nil => rfl
    | cons b t =>
      simp only [List.flatMap_nil, List.flatMap_cons] at h
      exact absurd (List.append_eq_nil.mp h.symm).1 (hne b)
  | cons a t ih =>
    intro l2 h
    cases l2 with
    | nil =>
      simp only [List.flatMap_nil, List.flatMap_cons] at h
      exact absurd (List.append_eq_nil.mp h).1 (hne a)
    | cons b t2 =>
      simp only [List.flatMap_cons] at h
      have hab : a = b := by
        have h1 : enc a <+: enc b ++ t2.flatMap enc := h ▸ List.prefix_append _ _
        have h2 : enc b <+: enc b ++ t2.flatMap enc := List.prefix_append _ _
        rcases List.prefix_or_prefix_of_prefix h1 h2 with hp | hp
        · exact hpre a b hp
        · exact (hpre b a hp).symm
      subst hab
      rw [ih t2 (List.append_cancel_left h)]

/-- UTF-8 encodes every character to at least one byte. -/
theorem utf8Char_ne_nil (c : Char) : utf8Char c ≠ [] := by
  unfold utf8Char
  split_ifs <;> simp

/-- UTF-8 is a prefix code: the leading byte determines the class. -/
theorem utf8Char_prefix {a b : Char} (h : utf8Char a <+: utf8Char b) : a = b := by
  apply charToNat_inj
  unfold utf8Char at h
  split_ifs at h <;>
    simp only [List.cons_prefix_cons, List.prefix_nil, List.nil_prefix, and_true,
      List.cons_ne_nil, and_false] at h <;>
    omega

/-- UTF-8 encoding of strings is injective. -/
theorem utf8Encode_inj {a b : String} (h : utf8Encode a = utf8Encode b) : a = b :=
  String.ext (flatMap_enc_inj utf8Char utf8Char_ne_nil
    (fun _ _ => utf8Char_prefix) a.data b.data h)

/-- UTF-16 encodes every character to at least one unit. -/
theorem u16Char_ne_nil (c : Char) : u16Char c ≠ [] := by
  unfold u16Char
  split_ifs <;> simp

/-- UTF-16 is a prefix code on scalar values: a single unit is never in the
surrogate range, a pair starts with a high surrogate. -/
theorem u16Char_prefix {a b : Char} (h : u16Char a <+: u16Char b) : a = b := by
  have hva := char_toNat_valid a
  have hvb := char_toNat_valid b
  apply charToNat_inj
  unfold u16Char at h
  split_ifs at h <;>
    simp only [List.cons_prefix_cons, List.prefix_nil, List.nil_prefix, and_true,
      List.cons_ne_nil, and_false] at h <;>
    omega

/-- UTF-16 unit sequences determine the string. -/
theorem u16Units_inj {a b : String} (h : u16Units a = u16Units b) : a = b :=
  String.ext (flatMap_enc_inj u16Char u16Char_ne_nil
    (fun _ _ => u16Char_prefix) a.data b.data h)

/-! ## Order properties of the JS string sort -/

/-- The unit-list order is total. -/
theorem u16Le_total : ∀ x y : List Nat, u16Le x y = true ∨ u16Le y x = true := by
  intro x
  induction x with
  | nil => intro y; left; rfl
  | cons a as ih =>
    intro y
    cases y with
    | nil => right; rfl
    | cons b bs =>
      simp only [u16Le]
      rcases Nat.lt_trichotomy a b with hab | hab | hab
      · left; simp [hab, Nat.not_lt.mpr (Nat.le_of_lt hab)]
      · subst hab
        simpa [Nat.lt_irrefl] using ih bs
      · right; simp [hab, Nat.not_lt.mpr (Nat.le_of_lt hab)]

/-- The unit-list order is transitive. -/
theorem u16Le_trans : ∀ x y z : List Nat,
    u16Le x y = true → u16Le y z = true → u16Le x z = true := by
  intro x
  induction x with
  | nil => intro y z _ _; rfl
  | cons a as ih =>
    intro y z hxy hyz
    cases y with
    | nil => simp [u16Le] at hxy
    | cons b bs =>
      cases z with
      | nil => simp [u16Le] at hyz
      | cons c cs =>
        simp only [u16Le] at hxy hyz ⊢
        split_ifs at hxy hyz ⊢ <;>
          first
            | rfl
            | (exact ih bs cs hxy hyz)
            | (exfalso; omega)

/-- The unit-list order is antisymmetric. -/
theorem u16Le_antisymm : ∀ x y : List Nat,
    u16Le x y = true → u16Le y x = true → x = y := by
  intro x
  induction x with
  | nil =>
    intro y _ hyx
    cases y with
    | nil => rfl
    | cons b bs => simp [u16Le] at hyx
  | cons a as ih =>
    intro y hxy hyx
    cases y with
    | nil => simp [u16Le] at hxy
    | cons b bs =>
      simp only [u16Le] at hxy hyx
      split_ifs at hxy hyx <;> try omega
      have hab : a = b := by omega
      subst hab
      rw [ih bs hxy hyx]

instance : IsTotal String jsLe := ⟨fun a b => u16Le_total (u16Units a) (u16Units b)⟩

instance : IsTrans String jsLe :=
  ⟨fun a b c => u16Le_trans (u16Units a) (u16Units b) (u16Units c)⟩

instance : IsAntisymm String jsLe :=
  ⟨fun a b hab hba => u16Units_inj (u16Le_antisymm (u16Units a) (u16Units b) hab hba)⟩

/-! ## Inverting JSON string escaping

A small decoder scans an escaped body up to its closing unescaped quote and
recovers the code points; running it on `escape s ++ '"' :: r` recovers `s`
and `r`, which gives injectivity of the canonical payload encoding. -/

/-- Value of a lowercase hex digit character (its index in `hexChars`). -/
def hexVal (c : Char) : Nat := hexChars.findIdx (fun x => x == c)

/-- Code point for a single-character JSON escape. -/
def escCode (e : Char) : Nat :=
  if e = '"' then 34
  else if e = '\\' then 92
  else if e = 'b' then 8
  else if e = 't' then 9
  else if e = 'n' then 10
  else if e = 'f' then 12
  else if e = 'r' then 13
  else 0

/-- Decode an escaped JSON string body up to the first unescaped quote,
returning the decoded code points and the remainder after the quote. -/
def unescN : List Char → Option (List Nat × List Char)
  | [] => none
  | '"' :: r => some ([], r)
  | '\\' :: 'u' :: h1 :: h2 :: h3 :: h4 :: r2 =>
    (unescN r2).map (fun p =>
      ((((hexVal h1 * 16 + hexVal h2) * 16 + hexVal h3) * 16 + hexVal h4) :: p.1, p.2))
  | '\\' :: e :: r2 => (unescN r2).map (fun p => (escCode e :: p.1, p.2))
  | ['\\'] => none
  | c :: r => (unescN r).map (fun p => (c.toNat :: p.1, p.2))

/-- A character other than a quote or backslash decodes to its own code point. -/
theorem unescN_normal {c : Char} (h1 : c ≠ '"') (h2 : c ≠ '\\') (r : List Char) :
    unescN (c :: r) = (unescN r).map (fun p => (c.toNat :: p.1, p.2)) := by
  cases r with
  | nil => simp [unescN, h1, h2]
  | cons e r2 => simp [unescN, h1, h2]

/-- Hex digits decode back to their values. -/
theorem hexVal_hexDigit : ∀ v : Fin 16, hexVal (hexDigit v.val) = v.val := by decide

/-- Version with a bound hypothesis. -/
theorem hexVal_digit {v : Nat} (h : v < 16) : hexVal (hexDigit v) = v :=
  hexVal_hexDigit ⟨v, h⟩

/-- The decoder inverts `escape` and finds the closing quote. -/
theorem unescN_escape : ∀ (s : List Char) (r : List Char),
    unescN (escape s ++ '"' :: r) = some (s.map Char.toNat, r) := by
  intro s
  induction s with
  | nil => intro r; rfl
  | cons c cs ih =>
    intro r
    show unescN ((escChar c ++ escape cs) ++ '"' :: r) = _
    rw [List.append_assoc]
    unfold escChar
    split_ifs with h1 h2 h3 h4 h5 h6 h7 h8
    · subst h1
      show (unescN (escape cs ++ '"' :: r)).map _ = _
      rw [ih]
      simp [escCode]
    · subst h2
      show (unescN (escape cs ++ '"' :: r)).map _ = _
      rw [ih]
      simp [escCode]
    · show (unescN (escape cs ++ '"' :: r)).map _ = _
      rw [ih]
      simp [escCode]
      omega
    · show (unescN (escape cs ++ '"' :: r)).map _ = _
      rw [ih]
      simp [escCode]
      omega
    · show (unescN (escape cs ++ '"' :: r)).map _ = _
      rw [ih]
      simp [escCode]
      omega
    · show (unescN (escape cs ++ '"' :: r)).map _ = _
      rw [ih]
      simp [escCode]
      omega
    · show (unescN (escape cs ++ '"' :: r)).map _ = _
      rw [ih]
      simp [escCode]
      omega
    · show (unescN (escape cs ++ '"' :: r)).map _ = _
      rw [ih, hexVal_digit (show c.toNat / 16 < 16 by omega),
        hexVal_digit (show c.toNat % 16 < 16 by omega),
        show hexVal '0' = 0 from rfl]
      simp
      omega
    · simp only [List.singleton_append]
      rw [unescN_normal h1 h2, ih]
      rfl

/-- Equal escaped segments followed by a quote have equal plaintexts and
equal remainders. -/
theorem escape_quote_inj {x y r1 r2 : List Char}
    (h : escape x ++ '"' :: r1 = escape y ++ '"' :: r2) : x = y ∧ r1 = r2 := by
  have hx := unescN_escape x r1
  rw [h, unescN_escape y r2] at hx
  simp only [Option.some.injEq, Prod.mk.injEq] at hx
  exact ⟨List.map_injective_iff.mpr (fun a b hab => charToNat_inj hab) hx.1.symm, hx.2.symm⟩

/-! ## base64url decodes its own encodings -/

/-- Every alphabet character decodes to its 6-bit value. -/
theorem b64Val_b64Digit : ∀ v : Fin 64, b64Val (b64Digit v.val) = some v.val := by decide

/-- Version with a bound hypothesis. -/
theorem b64Val_digit {v : Nat} (h : v < 64) : b64Val (b64Digit v) = some v :=
  b64Val_b64Digit ⟨v, h⟩

/-- Decoding an encoding recovers the bytes (Node keeps all whole bytes; the
unused low bits of a trailing digit are dropped, matching the encoder's
zero-padding). -/
theorem b64url_decEnc : ∀ (l : List Nat), (∀ x ∈ l, x < 256) →
    b64Bytes ((b64urlEncodeChars l).filterMap b64Val) = l
  | [] => by intro _; rfl
  | [a] => by
    intro h
    have ha : a < 256 := h a (by simp)
    simp only [b64urlEncodeChars, List.filterMap_cons,
      b64Val_digit (show a / 4 < 64 by omega),
      b64Val_digit (show a % 4 * 16 < 64 by omega), List.filterMap_nil, b64Bytes]
    simp only [List.cons.injEq, and_true]
    omega
  | [a, b] => by
    intro h
    have ha : a < 256 := h a (by simp)
    have hb : b < 256 := h b (by simp)
    simp only [b64urlEncodeChars, List.filterMap_cons,
      b64Val_digit (show a / 4 < 64 by omega),
      b64Val_digit (show a % 4 * 16 + b / 16 < 64 by omega),
      b64Val_digit (show b % 16 * 4 < 64 by omega), List.filterMap_nil, b64Bytes]
    simp only [List.cons.injEq, and_true]
    omega
  | a :: b :: c :: rest => by
    intro h
    have ha : a < 256 := h a (by simp)
    have hb : b < 256 := h b (by simp)
    have hc : c < 256 := h c (by simp)
    have ih := b64url_decEnc rest (fun x hx => h x (by simp [hx]))
    simp only [b64urlEncodeChars, List.filterMap_cons,
      b64Val_digit (show a / 4 < 64 by omega),
      b64Val_digit (show a % 4 * 16 + b / 16 < 64 by omega),
      b64Val_digit (show b % 16 * 4 + c / 64 < 64 by omega),
      b64Val_digit (show c % 64 < 64 by omega), b64Bytes, ih]
    simp only [List.cons.injEq, and_true]
    omega

/-- String-level roundtrip. -/
theorem base64url_roundtrip (l : List Nat) (h : ∀ x ∈ l, x < 256) :
    base64urlDecode (base64urlEncode l) = l :=
  b64url_decEnc l h

/-! ## The serializer depends only on the property list and the lookups -/

/-- Characterization of a successful property access, given unique keys. -/
theorem lookupF_fieldsOf_some :
    ∀ {l : List (String × J)}, (l.map Prod.fst).Nodup →
      ∀ {k : String} {v : J}, (lookupF k (fieldsOf l) = some v ↔ (k, v) ∈ l) := by
  intro l
  induction l with
  | nil => intro _ k v; simp [fieldsOf, lookupF]
  | cons kv t ih =>
    intro hnd k v
    obtain ⟨k', v'⟩ := kv
    simp only [List.map_cons, List.nodup_cons] at hnd
    simp only [fieldsOf, lookupF]
    by_cases hk : k' = k
    · subst hk
      rw [if_pos (beq_self_eq_true _)]
      simp only [Option.some.injEq, List.mem_cons, Prod.mk.injEq, true_and]
      constructor
      · intro h; exact Or.inl h.symm
      · rintro (h | h)
        · exact h.symm
        · exact absurd (List.mem_map_of_mem Prod.fst h) hnd.1
    · rw [if_neg (by simp [hk])]
      rw [ih hnd.2]
      simp only [List.mem_cons, Prod.mk.injEq]
      constructor
      · intro h; exact Or.inr h
      · rintro (⟨hk1, _⟩ | h)
        · exact absurd hk1.symm hk
        · exact h

/-- A failed property access means the key is absent. -/
theorem lookupF_fieldsOf_none :
    ∀ {l : List (String × J)} {k : String},
      (lookupF k (fieldsOf l) = none ↔ k ∉ l.map Prod.fst) := by
  intro l
  induction l with
  | nil => intro k; simp [fieldsOf, lookupF]
  | cons kv t ih =>
    intro k
    obtain ⟨k', v'⟩ := kv
    simp only [fieldsOf, lookupF, List.map_cons, List.mem_cons]
    by_cases hk : k' = k
    · subst hk
      rw [if_pos (beq_self_eq_true _)]
      simp
    · rw [if_neg (by simp [hk])]
      rw [ih]
      constructor
      · intro h hmem
        rcases hmem with hmem | hmem
        · exact hk hmem.symm
        · exact h hmem
      · intro h hmem; exact h (Or.inr hmem)

/-- Property access is invariant under reordering of distinct-keyed fields. -/
theorem lookupF_perm {l1 l2 : List (String × J)} (hp : l1.Perm l2)
    (hnd : (l1.map Prod.fst).Nodup) (k : String) :
    lookupF k (fieldsOf l1) = lookupF k (fieldsOf l2) := by
  have hnd2 : (l2.map Prod.fst).Nodup := ((hp.map Prod.fst).nodup_iff).mp hnd
  cases h : lookupF k (fieldsOf l1) with
  | some v =>
    rw [lookupF_fieldsOf_some hnd] at h
    exact ((lookupF_fieldsOf_some hnd2).mpr (hp.mem_iff.mp h)).symm
  | none =>
    rw [lookupF_fieldsOf_none] at h
    symm
    rw [lookupF_fieldsOf_none]
    intro hmem
    exact h (((hp.map Prod.fst).mem_iff).mpr hmem)

/-- Size of a field list in terms of its entries. -/
theorem jsize_fieldsOf :
    ∀ l : List (String × J), jsize (fieldsOf l) = 1 + (l.map (fun kv => 1 + jsize kv.2)).sum := by
  intro l
  induction l with
  | nil => simp [fieldsOf, jsize]
  | cons kv t ih =>
    simp only [fieldsOf, jsize, ih, List.map_cons, List.sum_cons]
    omega

/-- The keys of a field list. -/
theorem keysF_fieldsOf : ∀ l : List (String × J), keysF (fieldsOf l) = l.map Prod.fst := by
  intro l
  induction l with
  | nil => rfl
  | cons kv t ih => simp [fieldsOf, keysF, ih]

/-- One unfolding step of the serializer on an object: the emitted properties
are those of the property list `K`, in `K`'s order, at every level. -/
theorem serialize_obj (f : Nat) (K : List String) (fs : J) :
    serialize (f + 1) K (.jobj fs) =
      lbrace :: (List.intercalate [','] (K.filterMap (fun k =>
        (lookupF k fs).map (fun v' => jsonQuote k ++ ':' :: serialize f K v')))) ++ [rbrace] := by
  simp [serialize]

/-- Canonicalization depends only on the set of top-level properties: two
objects with the same fields in any insertion orders canonicalize alike. -/
theorem jcs_perm_invariant {l1 l2 : List (String × J)} (hp : l1.Perm l2)
    (hnd : (l1.map Prod.fst).Nodup) :
    jcsCanonicalize (.jobj (fieldsOf l1)) = jcsCanonicalize (.jobj (fieldsOf l2)) := by
  have hsize : jsize (fieldsOf l1) = jsize (fieldsOf l2) := by
    rw [jsize_fieldsOf, jsize_fieldsOf, (hp.map (fun kv => 1 + jsize kv.2)).sum_eq]
  have hK : sortKeysJS (objectKeys (.jobj (fieldsOf l1)))
      = sortKeysJS (objectKeys (.jobj (fieldsOf l2))) := by
    show sortKeysJS (keysF (fieldsOf l1)) = sortKeysJS (keysF (fieldsOf l2))
    rw [keysF_fieldsOf, keysF_fieldsOf]
    refine @List.eq_of_perm_of_sorted String jsLe _ _ _ ?_ ?_ ?_
    · exact ((List.perm_insertionSort jsLe _).trans (hp.map Prod.fst)).trans
        (List.perm_insertionSort jsLe _).symm
    · exact List.sorted_insertionSort jsLe _
    · exact List.sorted_insertionSort jsLe _
  unfold jcsCanonicalize
  rw [hK]
  have h1 : jsize (J.jobj (fieldsOf l1)) = jsize (fieldsOf l1) + 1 := by simp [jsize]; omega
  have h2 : jsize (J.jobj (fieldsOf l2)) = jsize (fieldsOf l2) + 1 := by simp [jsize]; omega
  rw [h1, h2, hsize, serialize_obj, serialize_obj]
  have hfun : (fun k => (lookupF k (fieldsOf l1)).map
        (fun v' => jsonQuote k ++ ':' :: serialize (jsize (fieldsOf l2))
          (sortKeysJS (objectKeys (J.jobj (fieldsOf l2)))) v'))
      = (fun k => (lookupF k (fieldsOf l2)).map
        (fun v' => jsonQuote k ++ ':' :: serialize (jsize (fieldsOf l2))
          (sortKeysJS (objectKeys (J.jobj (fieldsOf l2)))) v')) := by
    funext k
    rw [lookupF_perm hp hnd k]
  rw [hfun]

/-! ## The signature payload and its canonical form

`SignatureData` (anp-key-generator.ts lines 65-70) is the `{nonce, timestamp,
service, did}` object, fields in the insertion order `generateSignatureData`
creates them. -/

structure SignatureData where
  nonce : String
  timestamp : String
  service : String
  did : String
deriving DecidableEq

/-- The JS object a `SignatureData` value denotes. -/
def sigToJson (d : SignatureData) : J :=
  .jobj (fieldsOf [("nonce", .jstr d.nonce), ("timestamp", .jstr d.timestamp),
    ("service", .jstr d.service), ("did", .jstr d.did)])

/-- The canonical characters of a payload: top-level keys sorted
(`did < nonce < service < timestamp`), each value a quoted escaped string. -/
def canonChars (d : SignatureData) : List Char :=
  lbrace :: '"' :: 'd' :: 'i' :: 'd' :: '"' :: ':' :: '"' ::
    (escape d.did.data ++ '"' :: ',' :: '"' :: 'n' :: 'o' :: 'n' :: 'c' :: 'e' :: '"' :: ':' :: '"' ::
      (escape d.nonce.data ++ '"' :: ',' :: '"' :: 's' :: 'e' :: 'r' :: 'v' :: 'i' :: 'c' :: 'e' :: '"' :: ':' :: '"' ::
        (escape d.service.data ++ '"' :: ',' ::
          '"' :: 't' :: 'i' :: 'm' :: 'e' :: 's' :: 't' :: 'a' :: 'm' :: 'p' :: '"' :: ':' :: '"' ::
            (escape d.timestamp.data ++ '"' :: rbrace :: []))))

/-- The canonicalizer on a payload produces exactly `canonChars`. -/
theorem jcs_sigToJson (d : SignatureData) :
    jcsCanonicalize (sigToJson d) = String.mk (canonChars d) := by
  simp [jcsCanonicalize, sigToJson, canonChars, serialize, jsonQuote, escape, escChar, jsize,
    fieldsOf, lookupF, objectKeys, keysF, sortKeysJS, List.insertionSort, List.orderedInsert,
    List.intercalate, List.intersperse, jsLe, u16Units, u16Le, u16Char, lbrace, rbrace]

/-! ## The signing and verification layer (anp-key-generator.ts lines 342-389)

The elliptic-curve primitives live in `@noble/ed25519` / `@noble/secp256k1`;
the SDK calls `sign(message, privateKey)`, `verify(signature, message,
publicKey)` and `getPublicKey(privateKey)`.  They are modelled as a record of
functions, `verify` in `Except` because the noble verifiers throw on
malformed inputs; `LibContract` is the deterministic-signature contract the
SDK relies on: signatures are byte arrays, distinct byte messages have
distinct signatures under one key, and verification under `getPublicKey sk`
accepts exactly the signature of the presented message. -/

structure NobleLib where
  sign : List Nat → List Nat → List Nat
  verify : List Nat → List Nat → List Nat → Except String Bool
  getPublicKey : List Nat → List Nat

/-- All entries are bytes. -/
def IsBytes (l : List Nat) : Prop := ∀ x ∈ l, x < 256

/-- The idealized contract of a deterministic signature library. -/
def LibContract (L : NobleLib) : Prop :=
  (∀ msg sk, IsBytes msg → IsBytes (L.sign msg sk)) ∧
  (∀ sk m1 m2, IsBytes m1 → IsBytes m2 → L.sign m1 sk = L.sign m2 sk → m1 = m2) ∧
  (∀ sig msg sk, L.verify sig msg (L.getPublicKey sk) = .ok true ↔ sig = L.sign msg sk)

/-- The UTF-8 bytes of the canonicalized payload — what `signEd25519` signs. -/
def signedMessage (d : SignatureData) : List Nat :=
  utf8Encode (jcsCanonicalize (sigToJson d))

/-- The SHA-256 digest of the canonical bytes — what `signSecp256k1` signs. -/
def hashedMessage (d : SignatureData) : List Nat := sha256 (signedMessage d)

/-- Model of `ANPKeyGenerator.signEd25519`. -/
def signEd25519 (L : NobleLib) (privateKey : List Nat) (data : SignatureData) : String :=
  let canonicalJson := jcsCanonicalize (sigToJson data)
  let message := utf8Encode canonicalJson
  let signature := L.sign message privateKey
  base64urlEncode signature

/-- Model of `ANPKeyGenerator.signSecp256k1`. -/
def signSecp256k1 (L : NobleLib) (privateKey : List Nat) (data : SignatureData) : String :=
  let canonicalJson := jcsCanonicalize (sigToJson data)
  let messageHash := sha256 (utf8Encode canonicalJson)
  let signature := L.sign messageHash privateKey
  base64urlEncode signature

/-- Model of `ANPKeyGenerator.verifyEd25519`: the try/catch body returns the
library verdict, any thrown error becomes `false`. -/
def verifyEd25519 (L : NobleLib) (publicKey : List Nat) (signature : String)
    (data : SignatureData) : Bool :=
  let canonicalJson := jcsCanonicalize (sigToJson data)
  let message := utf8Encode canonicalJson
  let signatureBuffer := base64urlDecode signature
  match L.verify signatureBuffer message publicKey with
  | .ok b => b
  | .error _ => false

/-- Model of `ANPKeyGenerator.verifySecp256k1`. -/
def verifySecp256k1 (L : NobleLib) (publicKey : List Nat) (signature : String)
    (data : SignatureData) : Bool :=
  let canonicalJson := jcsCanonicalize (sigToJson data)
  let messageHash := sha256 (utf8Encode canonicalJson)
  let signatureBuffer := base64urlDecode signature
  match L.verify signatureBuffer messageHash publicKey with
  | .ok b => b
  | .error _ => false

/-- UTF-8 output entries are bytes. -/
theorem utf8Encode_bytes (s : String) : IsBytes (utf8Encode s) := by
  intro x hx
  simp only [utf8Encode, List.mem_flatMap] at hx
  obtain ⟨c, _, hc⟩ := hx
  have hv := char_toNat_valid c
  unfold utf8Char at hc
  split_ifs at hc <;> simp at hc <;> omega

/-- The Ed25519 wrapper verdict is `true` exactly when the library accepts. -/
theorem verifyEd25519_true_iff (L : NobleLib) (pk : List Nat) (s : String)
    (d : SignatureData) :
    verifyEd25519 L pk s d = true ↔
      L.verify (base64urlDecode s) (signedMessage d) pk = .ok true := by
  unfold verifyEd25519 signedMessage
  cases h : L.verify (base64urlDecode s) (utf8Encode (jcsCanonicalize (sigToJson d))) pk with
  | ok b => simp [h]
  | error e => simp [h]

/-- The secp256k1 wrapper verdict is `true` exactly when the library accepts. -/
theorem verifySecp256k1_true_iff (L : NobleLib) (pk : List Nat) (s : String)
    (d : SignatureData) :
    verifySecp256k1 L pk s d = true ↔
      L.verify (base64urlDecode s) (hashedMessage d) pk = .ok true := by
  unfold verifySecp256k1 hashedMessage signedMessage
  cases h : L.verify (base64urlDecode s) (sha256 (utf8Encode (jcsCanonicalize (sigToJson d)))) pk with
  | ok b => simp [h]
  | error e => simp [h]

/-- The Ed25519 signature string decodes back to the raw signature bytes. -/
theorem signEd25519_decode (L : NobleLib) (sk : List Nat) (d : SignatureData)
    (hb : IsBytes (L.sign (signedMessage d) sk)) :
    base64urlDecode (signEd25519 L sk d) = L.sign (signedMessage d) sk :=
  base64url_roundtrip _ hb

/-- The secp256k1 signature string decodes back to the raw signature bytes. -/
theorem signSecp256k1_decode (L : NobleLib) (sk : List Nat) (d : SignatureData)
    (hb : IsBytes (L.sign (hashedMessage d) sk)) :
    base64urlDecode (signSecp256k1 L sk d) = L.sign (hashedMessage d) sk :=
  base64url_roundtrip _ hb

/-- Distinct payloads have distinct signed byte messages. -/
theorem signedMessage_inj {d1 d2 : SignatureData}
    (h : signedMessage d1 = signedMessage d2) : d1 = d2 := by
  have hc := utf8Encode_inj h
  rw [jcs_sigToJson, jcs_sigToJson] at hc
  have hl : canonChars d1 = canonChars d2 := by
    injection hc
  -- peel the fixed prefix, then alternate decoder steps and fixed separators
  simp only [canonChars, List.cons.injEq, true_and] at hl
  obtain ⟨hdid, hl⟩ := escape_quote_inj hl
  simp only [List.cons.injEq, true_and] at hl
  obtain ⟨hnon, hl⟩ := escape_quote_inj hl
  simp only [List.cons.injEq, true_and] at hl
  obtain ⟨hser, hl⟩ := escape_quote_inj hl
  simp only [List.cons.injEq, true_and] at hl
  obtain ⟨hts, _⟩ := escape_quote_inj hl
  obtain ⟨n1, t1, s1, i1⟩ := d1
  obtain ⟨n2, t2, s2, i2⟩ := d2
  simp only [SignatureData.mk.injEq]
  exact ⟨String.ext hnon, String.ext hts, String.ext hser, String.ext hdid⟩

/-! ## A concrete witness library

A toy deterministic scheme satisfying `LibContract` — enough to exhibit
satisfiability of the contract and concrete behaviour of the SDK wrappers. -/

/-- Reduce entries to bytes. -/
def modBytes (l : List Nat) : List Nat := l.map (fun x => x % 256)

/-- A toy deterministic signature library: the signature is the (byte-reduced)
key followed by the message, the public key is the private key. -/
def concatLib : NobleLib where
  sign msg sk := modBytes sk ++ modBytes msg
  verify sig msg pk := .ok (sig == modBytes pk ++ modBytes msg)
  getPublicKey sk := sk

/-- Byte lists are fixed by byte reduction. -/
theorem modBytes_id {l : List Nat} (h : IsBytes l) : modBytes l = l := by
  induction l with
  | nil => rfl
  | cons a t ih =>
    have ha : a < 256 := h a (by simp)
    simp only [modBytes, List.map_cons] at ih ⊢
    rw [Nat.mod_eq_of_lt ha, ih (fun x hx => h x (by simp [hx]))]

/-- Byte reduction produces bytes. -/
theorem modBytes_bytes (l : List Nat) : IsBytes (modBytes l) := by
  intro x hx
  simp only [modBytes, List.mem_map] at hx
  obtain ⟨a, _, ha⟩ := hx
  omega

/-- The toy library satisfies the deterministic-signature contract. -/
theorem concatLib_contract : LibContract concatLib := by
  refine ⟨?_, ?_, ?_⟩
  · intro msg sk _ x hx
    simp only [concatLib, List.mem_append] at hx
    rcases hx with hx | hx <;> exact modBytes_bytes _ x hx
  · intro sk m1 m2 h1 h2 heq
    simp only [concatLib] at heq
    have := List.append_cancel_left heq
    rwa [modBytes_id h1, modBytes_id h2] at this
  · intro sig msg sk
    simp only [concatLib, Except.ok.injEq]
    rw [show (sig == modBytes sk ++ modBytes msg) = true ↔ sig = modBytes sk ++ modBytes msg
      from beq_iff_eq]

/-! ## Claim C1 — sign/verify round trip and mutation rejection -/

/-- A concrete payload for witnesses and counterexamples. -/
def d0 : SignatureData := ⟨"n", "t", "s", "d"⟩

/-- The Ed25519 toy signature of `d0` under key `[1,2]` with its final base64url
character changed from `Q` to `R`: both spell the same decoded bytes, because
the final character of a 55-byte encoding carries only four significant bits. -/
def sigMut : String :=
  "AQJ7ImRpZCI6ImQiLCJub25jZSI6Im4iLCJzZXJ2aWNlIjoicyIsInRpbWVzdGFtcCI6InQifR"

/-- A family of pairwise distinct payloads, used to force a digest collision. -/
def c1Payload (n : Nat) : SignatureData := ⟨String.mk (List.replicate n 'a'), "", "", ""⟩

/-- Any digest position read with a default is a byte. -/
theorem sha256_getD_lt (m : List Nat) (i : Nat) : (sha256 m).getD i 0 < 256 := by
  by_cases hi : i < (sha256 m).length
  · rw [List.getD_eq_getElem _ _ hi]
    exact sha256_bytes m _ (List.getElem_mem hi)
  · rw [List.getD_eq_default _ _ (Nat.le_of_not_lt hi)]
    omega

/-- C1 (corrected): under the library contract, signing then verifying the
unmodified payload yields `true` for both algorithms; verifying yields `false`
for every payload mutation whose signed bytes differ (for Ed25519 that is
every mutation; for secp256k1 every mutation with a different SHA-256 digest
of the canonical form) and for every signature-string change whose base64url
decoding differs from the original's. -/
theorem sign_verify_roundtrip_and_mutations
    (Led Lse : NobleLib) (hed : LibContract Led) (hse : LibContract Lse)
    (sk skS : List Nat) (d : SignatureData) :
    verifyEd25519 Led (Led.getPublicKey sk) (signEd25519 Led sk d) d = true ∧
    (∀ d' : SignatureData, d' ≠ d →
      verifyEd25519 Led (Led.getPublicKey sk) (signEd25519 Led sk d) d' = false) ∧
    (∀ s' : String, base64urlDecode s' ≠ base64urlDecode (signEd25519 Led sk d) →
      verifyEd25519 Led (Led.getPublicKey sk) s' d = false) ∧
    verifySecp256k1 Lse (Lse.getPublicKey skS) (signSecp256k1 Lse skS d) d = true ∧
    (∀ d' : SignatureData, d' ≠ d → hashedMessage d' ≠ hashedMessage d →
      verifySecp256k1 Lse (Lse.getPublicKey skS) (signSecp256k1 Lse skS d) d' = false) ∧
    (∀ s' : String, base64urlDecode s' ≠ base64urlDecode (signSecp256k1 Lse skS d) →
      verifySecp256k1 Lse (Lse.getPublicKey skS) s' d = false) := by
  obtain ⟨hedB, hedInj, hedV⟩ := hed
  obtain ⟨hseB, hseInj, hseV⟩ := hse
  have hmsgB : IsBytes (signedMessage d) := utf8Encode_bytes _
  have hdec : base64urlDecode (signEd25519 Led sk d) = Led.sign (signedMessage d) sk :=
    signEd25519_decode _ _ _ (hedB _ _ hmsgB)
  have hhashB : IsBytes (hashedMessage d) := sha256_bytes _
  have hdecS : base64urlDecode (signSecp256k1 Lse skS d) = Lse.sign (hashedMessage d) skS :=
    signSecp256k1_decode _ _ _ (hseB _ _ hhashB)
  refine ⟨?_, ?_, ?_, ?_, ?_, ?_⟩
  · rw [verifyEd25519_true_iff, hdec]
    exact (hedV _ _ _).mpr rfl
  · intro d' hne
    by_contra hcon
    rw [Bool.not_eq_false, verifyEd25519_true_iff, hdec] at hcon
    have hsgn := (hedV _ _ _).mp hcon
    have hm := hedInj sk _ _ hmsgB (utf8Encode_bytes _) hsgn
    exact hne (signedMessage_inj hm).symm
  · intro s' hne
    by_contra hcon
    rw [Bool.not_eq_false, verifyEd25519_true_iff] at hcon
    have hsgn := (hedV _ _ _).mp hcon
    rw [← hdec] at hsgn
    exact hne hsgn
  · rw [verifySecp256k1_true_iff, hdecS]
    exact (hseV _ _ _).mpr rfl
  · intro d' hne hhne
    by_contra hcon
    rw [Bool.not_eq_false, verifySecp256k1_true_iff, hdecS] at hcon
    have hsgn := (hseV _ _ _).mp hcon
    have hm := hseInj skS _ _ hhashB (sha256_bytes _) hsgn
    exact hhne hm.symm
  · intro s' hne
    by_contra hcon
    rw [Bool.not_eq_false, verifySecp256k1_true_iff] at hcon
    have hsgn := (hseV _ _ _).mp hcon
    rw [← hdecS] at hsgn
    exact hne hsgn

/-- Witness: the contract hypotheses are satisfiable and the theorem applies
to the toy library at a concrete key pair and payload. -/
theorem sign_verify_roundtrip_and_mutations_witness :
    verifyEd25519 concatLib (concatLib.getPublicKey [1,2])
      (signEd25519 concatLib [1,2] d0) d0 = true ∧
    (∀ d' : SignatureData, d' ≠ d0 →
      verifyEd25519 concatLib (concatLib.getPublicKey [1,2])
        (signEd25519 concatLib [1,2] d0) d' = false) ∧
    (∀ s' : String, base64urlDecode s' ≠ base64urlDecode (signEd25519 concatLib [1,2] d0) →
      verifyEd25519 concatLib (concatLib.getPublicKey [1,2]) s' d0 = false) ∧
    verifySecp256k1 concatLib (concatLib.getPublicKey [3])
      (signSecp256k1 concatLib [3] d0) d0 = true ∧
    (∀ d' : SignatureData, d' ≠ d0 → hashedMessage d' ≠ hashedMessage d0 →
      verifySecp256k1 concatLib (concatLib.getPublicKey [3])
        (signSecp256k1 concatLib [3] d0) d' = false) ∧
    (∀ s' : String, base64urlDecode s' ≠ base64urlDecode (signSecp256k1 concatLib [3] d0) →
      verifySecp256k1 concatLib (concatLib.getPublicKey [3]) s' d0 = false) :=
  sign_verify_roundtrip_and_mutations concatLib concatLib
    concatLib_contract concatLib_contract [1,2] [3] d0

/-- Counterexample to C1 as stated: a signature-string mutation that still
verifies (the base64url decoder ignores the unused trailing bits), and — for
the secp256k1 path — a proof that "verify returns false for every payload
mutation" fails for every contract-satisfying library, because SHA-256 maps
infinitely many distinct canonical payloads onto finitely many digests. -/
theorem signature_mutation_counterexample :
    LibContract concatLib ∧
    sigMut ≠ signEd25519 concatLib [1,2] d0 ∧
    verifyEd25519 concatLib (concatLib.getPublicKey [1,2]) sigMut d0 = true ∧
    ¬ (∀ (L : NobleLib), LibContract L → ∀ (sk : List Nat) (d d' : SignatureData),
        d' ≠ d → verifySecp256k1 L (L.getPublicKey sk) (signSecp256k1 L sk d) d' = false) := by
  refine ⟨concatLib_contract, by decide, by decide, ?_⟩
  intro hAll
  have hbound : ∀ (n : Nat) (i : Fin 32), (hashedMessage (c1Payload n)).getD i.val 0 < 256 :=
    fun n i => sha256_getD_lt _ _
  obtain ⟨a, b, hab, hg⟩ := Finite.exists_ne_map_eq_of_infinite
    (fun (n : Nat) (i : Fin 32) => (⟨(hashedMessage (c1Payload n)).getD i.val 0, hbound n i⟩ : Fin 256))
  have hlen : ∀ n, (hashedMessage (c1Payload n)).length = 32 := fun n => sha256_length _
  have hlist : hashedMessage (c1Payload a) = hashedMessage (c1Payload b) := by
    apply List.ext_getElem (by rw [hlen, hlen])
    intro i h1 h2
    have hfin := congrFun hg ⟨i, by rw [hlen a] at h1; exact h1⟩
    have hval := congrArg Fin.val hfin
    simpa [List.getD, List.getElem?_eq_getElem h1, List.getElem?_eq_getElem h2] using hval
  have hne : c1Payload b ≠ c1Payload a := by
    intro h
    apply hab
    have := congrArg (fun d => d.nonce.length) h
    simpa [c1Payload, String.length] using this.symm
  have hv := hAll concatLib concatLib_contract [0] (c1Payload a) (c1Payload b) hne
  have htrue : verifySecp256k1 concatLib (concatLib.getPublicKey [0])
      (signSecp256k1 concatLib [0] (c1Payload a)) (c1Payload b) = true := by
    rw [verifySecp256k1_true_iff,
      signSecp256k1_decode _ _ _ (concatLib_contract.1 _ _ (sha256_bytes _)),
      concatLib_contract.2.2]
    show concatLib.sign (hashedMessage (c1Payload a)) [0]
      = concatLib.sign (hashedMessage (c1Payload b)) [0]
    rw [hlist]
  rw [hv] at htrue
  exact absurd htrue (by simp)

/-! ## Claim C2 — determinism and the actual shape of the canonicalizer -/

/-- C2 (corrected): canonicalization is deterministic — permuting the
top-level fields of an object (distinct keys) never changes the output — and
the sorted top-level key list acts as the `JSON.stringify` property list at
*every* level: each object, nested ones included, is serialized by iterating
that list, so nested keys outside it are dropped and nested keys inside it
appear in its order, not in their original order. -/
theorem jcs_deterministic_and_property_list
    (l1 l2 : List (String × J)) (hp : l1.Perm l2) (hnd : (l1.map Prod.fst).Nodup)
    (f : Nat) (K : List String) (fs : J) :
    jcsCanonicalize (.jobj (fieldsOf l1)) = jcsCanonicalize (.jobj (fieldsOf l2)) ∧
    serialize (f + 1) K (.jobj fs) =
      lbrace :: (List.intercalate [','] (K.filterMap (fun k =>
        (lookupF k fs).map (fun v' => jsonQuote k ++ ':' :: serialize f K v')))) ++ [rbrace] :=
  ⟨jcs_perm_invariant hp hnd, serialize_obj f K fs⟩

/-- Witness: the determinism hypotheses hold at a concrete two-field object
given in both insertion orders. -/
theorem jcs_deterministic_and_property_list_witness :
    jcsCanonicalize (.jobj (fieldsOf [("b", J.jnum 1), ("a", J.jnum 2)]))
      = jcsCanonicalize (.jobj (fieldsOf [("a", J.jnum 2), ("b", J.jnum 1)])) ∧
    serialize (0 + 1) ["a"] (.jobj .fnil) =
      lbrace :: (List.intercalate [','] ((["a"] : List String).filterMap (fun k =>
        (lookupF k .fnil).map (fun v' => jsonQuote k ++ ':' :: serialize 0 ["a"] v')))) ++ [rbrace] :=
  jcs_deterministic_and_property_list [("b", J.jnum 1), ("a", J.jnum 2)]
    [("a", J.jnum 2), ("b", J.jnum 1)] (by decide) (by decide) 0 ["a"] .fnil

/-- A nested object whose keys differ from the top-level keys. -/
def c2Obj : J :=
  .jobj (fieldsOf [("b", .jobj (fieldsOf [("c", .jnum 1), ("a", .jnum 2)])), ("a", .jnum 0)])

/-- Counterexample to C2 as stated: the nested object is *not* serialized in
its original key order untouched — its key `"c"` (absent from the top level)
is dropped entirely and `"a"` is kept via the top-level property list. -/
theorem jcs_nested_counterexample :
    jcsCanonicalize c2Obj = "\x7b\"a\":0,\"b\":\x7b\"a\":2\x7d\x7d" ∧
    jcsCanonicalize c2Obj ≠ "\x7b\"a\":0,\"b\":\x7b\"c\":1,\"a\":2\x7d\x7d" ∧
    'c' ∉ (jcsCanonicalize c2Obj).data :=
  ⟨by decide, by decide, by decide⟩

/-! ## Claim C3 — per-algorithm signing paths and output encoding -/

/-- C3: `signEd25519` signs the UTF-8 bytes of the canonical payload directly;
`signSecp256k1` first hashes them with SHA-256 and signs the 32-byte digest;
both return the base64url encoding of the raw signature bytes (which decodes
back to exactly those bytes). -/
theorem signing_paths (Led Lse : NobleLib) (sk skS : List Nat) (d : SignatureData)
    (hbe : IsBytes (Led.sign (signedMessage d) sk))
    (hbs : IsBytes (Lse.sign (hashedMessage d) skS)) :
    signEd25519 Led sk d
      = base64urlEncode (Led.sign (utf8Encode (jcsCanonicalize (sigToJson d))) sk) ∧
    base64urlDecode (signEd25519 Led sk d)
      = Led.sign (utf8Encode (jcsCanonicalize (sigToJson d))) sk ∧
    signSecp256k1 Lse skS d
      = base64urlEncode (Lse.sign (sha256 (utf8Encode (jcsCanonicalize (sigToJson d)))) skS) ∧
    base64urlDecode (signSecp256k1 Lse skS d)
      = Lse.sign (sha256 (utf8Encode (jcsCanonicalize (sigToJson d)))) skS ∧
    (sha256 (utf8Encode (jcsCanonicalize (sigToJson d)))).length = 32 :=
  ⟨rfl, signEd25519_decode _ _ _ hbe, rfl, signSecp256k1_decode _ _ _ hbs, sha256_length _⟩

/-- Witness: the byte hypotheses hold for the toy library at a concrete key
and payload. -/
theorem signing_paths_witness :
    signEd25519 concatLib [1] d0
      = base64urlEncode (concatLib.sign (utf8Encode (jcsCanonicalize (sigToJson d0))) [1]) ∧
    base64urlDecode (signEd25519 concatLib [1] d0)
      = concatLib.sign (utf8Encode (jcsCanonicalize (sigToJson d0))) [1] ∧
    signSecp256k1 concatLib [2] d0
      = base64urlEncode (concatLib.sign (sha256 (utf8Encode (jcsCanonicalize (sigToJson d0)))) [2]) ∧
    base64urlDecode (signSecp256k1 concatLib [2] d0)
      = concatLib.sign (sha256 (utf8Encode (jcsCanonicalize (sigToJson d0)))) [2] ∧
    (sha256 (utf8Encode (jcsCanonicalize (sigToJson d0)))).length = 32 :=
  signing_paths concatLib concatLib [1] [2] d0
    (concatLib_contract.1 _ _ (utf8Encode_bytes _))
    (concatLib_contract.1 _ _ (sha256_bytes _))

/-! ## Claim C4 — verification is fail-closed -/

/-- C4: the verification wrappers are total boolean functions (they cannot
propagate an exception, by type), and whenever the underlying library
verification throws — malformed signature, wrong key length, any internal
failure — the wrapper returns `false`.  (The base64url decode step itself is
total in Node and never throws.) -/
theorem verify_fail_closed (Led Lse : NobleLib) (pk pkS : List Nat) (s sS : String)
    (d dS : SignatureData) (e eS : String)
    (he : Led.verify (base64urlDecode s) (signedMessage d) pk = .error e)
    (heS : Lse.verify (base64urlDecode sS) (hashedMessage dS) pkS = .error eS) :
    verifyEd25519 Led pk s d = false ∧ verifySecp256k1 Lse pkS sS dS = false := by
  constructor
  · cases hv : verifyEd25519 Led pk s d
    · rfl
    · have := (verifyEd25519_true_iff Led pk s d).mp hv
      rw [he] at this
      exact absurd this (by simp)
  · cases hv : verifySecp256k1 Lse pkS sS dS
    · rfl
    · have := (verifySecp256k1_true_iff Lse pkS sS dS).mp hv
      rw [heS] at this
      exact absurd this (by simp)

/-- A library whose verification always throws. -/
def throwLib : NobleLib where
  sign _ _ := []
  verify _ _ _ := .error "invalid signature"
  getPublicKey sk := sk

/-- Witness: a throwing library at concrete inputs is reported as `false`. -/
theorem verify_fail_closed_witness :
    verifyEd25519 throwLib [1] "!sig" d0 = false ∧
    verifySecp256k1 throwLib [2] "@@@" d0 = false :=
  verify_fail_closed throwLib throwLib [1] [2] "!sig" "@@@" d0 d0
    "invalid signature" "invalid signature" rfl rfl

/-! ## Key generator data model (anp-key-generator.ts lines 14-70)

`KeyPairResult.did_document` is a JSON string in the source
(`JSON.stringify(didDocument, null, 2)`) and `did-auto-config.ts` immediately
`JSON.parse`s it back; the stringify/parse round trip is the identity on the
document, so the field is modelled as the structured document itself. -/

inductive KeyType where
  | ED25519
  | SECP256K1
  | X25519
deriving DecidableEq, Inhabited

/-- The string value of each enum member. -/
def KeyType.toStr : KeyType → String
  | .ED25519 => "Ed25519VerificationKey2020"
  | .SECP256K1 => "EcdsaSecp256k1VerificationKey2019"
  | .X25519 => "X25519KeyAgreementKey2019"

structure PublicKeyJWK where
  crv : String
  x : Option String
  y : Option String
  kty : String
  kid : String
deriving DecidableEq, Inhabited

structure VerificationMethod where
  id : String
  type : String
  controller : String
  publicKeyJwk : Option PublicKeyJWK
  publicKeyMultibase : Option String
deriving DecidableEq, Inhabited

/-- An entry of `authentication`/`keyAgreement`/`humanAuthorization`:
either an id string or an embedded verification method. -/
inductive VMRef where
  | ref : String → VMRef
  | inline : VerificationMethod → VMRef
deriving DecidableEq, Inhabited

structure Service where
  id : String
  type : String
  serviceEndpoint : String
  description : Option String
deriving DecidableEq, Inhabited

structure DIDDocument where
  context : List String
  id : String
  verificationMethod : List VerificationMethod
  authentication : List VMRef
  keyAgreement : List VMRef
  humanAuthorization : List VMRef
  service : Option (List Service)
deriving DecidableEq, Inhabited

structure KeyPairResult where
  did_document : DIDDocument
  private_key : String
  did : String
deriving DecidableEq, Inhabited

/-- The random draws one `generateKeyPair` call makes: the 16 key-id bytes,
the primary key pair, the two auxiliary Ed25519 public keys (their private
halves are dropped by the source), and the 16 JWK kid bytes. -/
structure GenRand where
  keyId : List Nat
  authPriv : List Nat
  authPub : List Nat
  kaPub : List Nat
  haPub : List Nat
  jwkKid : List Nat
deriving DecidableEq

/-- Model of `ANPKeyGenerator.generateDID` with JS string truthiness: an
empty path behaves like a missing one. -/
def generateDID (domain : String) : Option String → String
  | some p => if p == "" then "did:wba:" ++ domain else "did:wba:" ++ domain ++ ":" ++ p
  | none => "did:wba:" ++ domain

/-- Model of the `this.path || 'default'` fallback. -/
def pathOrDefault : Option String → String
  | some p => if p == "" then "default" else p
  | none => "default"

/-- The well-known endpoint of the default "AgentDescription" service entry. -/
def agentDescriptionEndpoint (domain : String) (path : Option String) : String :=
  "https://" ++ domain ++ "/agents/" ++ pathOrDefault path ++ "/ad.json"

/-- Model of `generateNonce` applied to the drawn random bytes:
`randomBytes(n).toString('base64url')`. -/
def generateNonce (bytes : List Nat) : String := base64urlEncode bytes

/-- Model of `ANPKeyGenerator.encodeMultibase`. -/
def encodeMultibase (publicKey : List Nat) : String := "z" ++ base58Encode publicKey

/-- Model of `ANPKeyGenerator.generateJWK`. -/
def generateJWK (publicKey : List Nat) (keyType : KeyType) (kidBytes : List Nat) : PublicKeyJWK :=
  let kid := generateNonce kidBytes
  if keyType = KeyType.SECP256K1 then
    let x := (publicKey.drop 1).take 32
    let y := (publicKey.drop 33).take 32
    { crv := "secp256k1", x := some (base64urlEncode x), y := some (base64urlEncode y),
      kty := "EC", kid := kid }
  else
    { crv := "Ed25519", x := none, y := none, kty := "OKP", kid := kid }

/-- The PEM label: a fixed name for the two supported types, the enum string
for anything else. -/
def pemLabel : KeyType → String
  | .ED25519 => "ED25519"
  | .SECP256K1 => "SECP256K1"
  | kt => kt.toStr

/-- Chunks of at most 64 characters, in order (`.match(/.{1,64}/g)`). -/
def chunksOf64 : Nat → List Char → List (List Char)
  | 0, _ => []
  | _, [] => []
  | fuel + 1, cs => cs.take 64 :: chunksOf64 fuel (cs.drop 64)

/-- 64-column line wrapping; the empty string stays empty (`null` match). -/
def wrap64 (s : String) : String :=
  String.mk (List.intercalate ['\n'] (chunksOf64 s.data.length s.data))

/-- Model of `ANPKeyGenerator.generatePEMPrivateKey`. -/
def generatePEMPrivateKey (privateKey : List Nat) (keyType : KeyType) : String :=
  let header := "-----BEGIN " ++ pemLabel keyType ++ " PRIVATE KEY-----"
  let footer := "-----END " ++ pemLabel keyType ++ " PRIVATE KEY-----"
  let formattedKey := wrap64 (base64StdEncode privateKey)
  header ++ "\n" ++ formattedKey ++ "\n" ++ footer

/-- The fixed `@context` list. -/
def didContext : List String :=
  ["https://www.w3.org/ns/did/v1",
   "https://w3id.org/security/suites/jws-2020/v1",
   "https://w3id.org/security/suites/secp256k1-2019/v1",
   "https://w3id.org/security/suites/ed25519-2020/v1",
   "https://w3id.org/security/suites/x25519-2019/v1"]

/-- Model of `ANPKeyGenerator.generateKeyPair` (lines 167-293), the random
draws passed explicitly.  Both supported branches add the primary
authentication method, an X25519-typed key-agreement method over a fresh
Ed25519 key, and an Ed25519 human-authorization method over another fresh
Ed25519 key; `humanAuthorization` lists the authentication key id *and* the
embedded third method.  Any other key type throws. -/
def generateKeyPair (domain : String) (path : Option String) (keyType : KeyType)
    (r : GenRand) : Except String KeyPairResult :=
  let did := generateDID domain path
  let keyId := generateNonce r.keyId
  let authKeyId := did ++ "#" ++ keyId
  let keyAgreementMethod : VerificationMethod :=
    { id := did ++ "#key-2", type := KeyType.toStr .X25519, controller := did,
      publicKeyJwk := none, publicKeyMultibase := some (encodeMultibase r.kaPub) }
  let humanAuthMethod : VerificationMethod :=
    { id := did ++ "#key-3", type := KeyType.toStr .ED25519, controller := did,
      publicKeyJwk := none, publicKeyMultibase := some (encodeMultibase r.haPub) }
  let svc : List Service :=
    [{ id := did ++ "#agent-description", type := "AgentDescription",
       serviceEndpoint := agentDescriptionEndpoint domain path, description := none }]
  match keyType with
  | .ED25519 =>
    let authMethod : VerificationMethod :=
      { id := authKeyId, type := KeyType.toStr .ED25519, controller := did,
        publicKeyJwk := none, publicKeyMultibase := some (encodeMultibase r.authPub) }
    .ok {
      did_document := {
        context := didContext, id := did,
        verificationMethod := [authMethod, keyAgreementMethod, humanAuthMethod],
        authentication := [.ref authKeyId],
        keyAgreement := [.inline keyAgreementMethod],
        humanAuthorization := [.ref authKeyId, .inline humanAuthMethod],
        service := some svc },
      private_key := generatePEMPrivateKey r.authPriv .ED25519,
      did := did }
  | .SECP256K1 =>
    let authMethod : VerificationMethod :=
      { id := authKeyId, type := KeyType.toStr .SECP256K1, controller := did,
        publicKeyJwk := some (generateJWK r.authPub .SECP256K1 r.jwkKid),
        publicKeyMultibase := none }
    .ok {
      did_document := {
        context := didContext, id := did,
        verificationMethod := [authMethod, keyAgreementMethod, humanAuthMethod],
        authentication := [.ref authKeyId],
        keyAgreement := [.inline keyAgreementMethod],
        humanAuthorization := [.ref authKeyId, .inline humanAuthMethod],
        service := some svc },
      private_key := generatePEMPrivateKey r.authPriv .SECP256K1,
      did := did }
  | .X25519 => .error ("不支持的密钥类型: " ++ KeyType.toStr .X25519)

/-! ## Claim C5 — document structure: exactly three verification methods -/

/-- C5: a successful `generateKeyPair` with either supported primary
algorithm yields exactly three verification methods — the primary
authentication key (referenced by id string in `authentication`), an
Ed25519-generated key-agreement key tagged with the X25519 agreement type
(embedded in `keyAgreement`), and an Ed25519-generated human-authorization
key — with `humanAuthorization` holding exactly the authentication key's id
string and the embedded third method. -/
theorem did_document_three_methods
    (domain : String) (path : Option String) (kt : KeyType) (r : GenRand)
    (res : KeyPairResult)
    (hkt : kt = .ED25519 ∨ kt = .SECP256K1)
    (hres : generateKeyPair domain path kt r = .ok res) :
    ∃ authVM kaVM haVM : VerificationMethod,
      res.did_document.verificationMethod = [authVM, kaVM, haVM] ∧
      authVM.id = generateDID domain path ++ "#" ++ generateNonce r.keyId ∧
      res.did_document.authentication = [.ref authVM.id] ∧
      kaVM.type = "X25519KeyAgreementKey2019" ∧
      kaVM.publicKeyMultibase = some (encodeMultibase r.kaPub) ∧
      res.did_document.keyAgreement = [.inline kaVM] ∧
      haVM.type = "Ed25519VerificationKey2020" ∧
      haVM.publicKeyMultibase = some (encodeMultibase r.haPub) ∧
      res.did_document.humanAuthorization = [.ref authVM.id, .inline haVM] := by
  rcases hkt with hkt | hkt <;> subst hkt <;>
    · simp only [generateKeyPair, Except.ok.injEq] at hres
      subst hres
      exact ⟨_, _, _, rfl, rfl, rfl, rfl, rfl, rfl, rfl, rfl, rfl⟩

/-- Concrete random draws for witnesses. -/
def tinyR : GenRand := ⟨[0], [1], [2], [3], [4], [5]⟩

/-- Witness: the structure holds at a concrete Ed25519 generation. -/
theorem did_document_three_methods_witness :
    ∃ authVM kaVM haVM : VerificationMethod,
      (match generateKeyPair "example.com" (some "user:alice") .ED25519 tinyR with
        | .ok res => res
        | .error _ => default).did_document.verificationMethod = [authVM, kaVM, haVM] ∧
      authVM.id = generateDID "example.com" (some "user:alice") ++ "#" ++ generateNonce tinyR.keyId ∧
      (match generateKeyPair "example.com" (some "user:alice") .ED25519 tinyR with
        | .ok res => res
        | .error _ => default).did_document.authentication = [.ref authVM.id] ∧
      kaVM.type = "X25519KeyAgreementKey2019" ∧
      kaVM.publicKeyMultibase = some (encodeMultibase tinyR.kaPub) ∧
      (match generateKeyPair "example.com" (some "user:alice") .ED25519 tinyR with
        | .ok res => res
        | .error _ => default).did_document.keyAgreement = [.inline kaVM] ∧
      haVM.type = "Ed25519VerificationKey2020" ∧
      haVM.publicKeyMultibase = some (encodeMultibase tinyR.haPub) ∧
      (match generateKeyPair "example.com" (some "user:alice") .ED25519 tinyR with
        | .ok res => res
        | .error _ => default).did_document.humanAuthorization
        = [.ref authVM.id, .inline haVM] :=
  did_document_three_methods "example.com" (some "user:alice") .ED25519 tinyR _
    (Or.inl rfl) rfl

/-! ## Claim C6 — per-algorithm public-key encodings -/

/-- C6: an Ed25519 public key is encoded as `'z' + base58(bytes)`, and a
65-byte uncompressed secp256k1 point `0x04‖X‖Y` becomes the JWK
`{kty:"EC", crv:"secp256k1", x: base64url(X), y: base64url(Y), kid}` with the
kid derived from the 16 freshly drawn random bytes. -/
theorem key_encodings (pk kid : List Nat) (b : Nat) (xs ys : List Nat)
    (hx : xs.length = 32) (hy : ys.length = 32) (hkid : kid.length = 16) :
    encodeMultibase pk = "z" ++ base58Encode pk ∧
    generateJWK (b :: xs ++ ys) .SECP256K1 kid =
      { crv := "secp256k1", x := some (base64urlEncode xs), y := some (base64urlEncode ys),
        kty := "EC", kid := base64urlEncode kid } := by
  refine ⟨rfl, ?_⟩
  have h1 : List.take 32 (xs ++ ys) = xs := by rw [← hx, List.take_left]
  have h2 : List.drop 32 (xs ++ ys) = ys := by rw [← hx, List.drop_left]
  have h3 : List.take 32 ys = ys := by rw [← hy, List.take_length]
  simp [generateJWK, generateNonce, h1, h2, h3]

/-- Witness: the encodings at a concrete 65-byte point and 16-byte kid. -/
theorem key_encodings_witness :
    encodeMultibase [7] = "z" ++ base58Encode [7] ∧
    generateJWK (4 :: List.replicate 32 0 ++ List.replicate 32 1) .SECP256K1
        (List.replicate 16 2) =
      { crv := "secp256k1", x := some (base64urlEncode (List.replicate 32 0)),
        y := some (base64urlEncode (List.replicate 32 1)),
        kty := "EC", kid := base64urlEncode (List.replicate 16 2) } :=
  key_encodings [7] (List.replicate 16 2) 4 (List.replicate 32 0) (List.replicate 32 1)
    (by simp) (by simp) (by simp)

/-! ## Claim C7 — DID string and default service endpoint -/

/-- C7 (corrected): for a *nonempty* path the DID is
`did:wba:<domain>:<path>` and the AgentDescription endpoint is
`https://<domain>/agents/<path>/ad.json`; with a missing path the DID is
`did:wba:<domain>` and the endpoint substitutes `default`; the spec's
concrete example holds.  (An empty given path behaves like a missing one —
see the counterexample.) -/
theorem did_and_endpoint (domain p : String) (r : GenRand) (res resN : KeyPairResult)
    (hp : p ≠ "")
    (h1 : generateKeyPair domain (some p) .ED25519 r = .ok res)
    (h2 : generateKeyPair domain none .ED25519 r = .ok resN) :
    res.did = "did:wba:" ++ domain ++ ":" ++ p ∧
    res.did_document.id = res.did ∧
    res.did_document.service = some [⟨res.did ++ "#agent-description", "AgentDescription",
      "https://" ++ domain ++ "/agents/" ++ p ++ "/ad.json", none⟩] ∧
    resN.did = "did:wba:" ++ domain ∧
    resN.did_document.service = some [⟨resN.did ++ "#agent-description", "AgentDescription",
      "https://" ++ domain ++ "/agents/default/ad.json", none⟩] ∧
    generateDID "example.com" (some "user:alice") = "did:wba:example.com:user:alice" ∧
    agentDescriptionEndpoint "example.com" (some "user:alice")
      = "https://example.com/agents/user:alice/ad.json" := by
  have hbeq : (p == "") = false := by simp [hp]
  simp only [generateKeyPair, Except.ok.injEq] at h1 h2
  subst h1
  subst h2
  have hstr : "https://" ++ domain ++ "/agents/" ++ "default" ++ "/ad.json"
      = "https://" ++ domain ++ "/agents/default/ad.json" := by
    apply String.ext
    simp [String.data_append]
  simp [generateDID, agentDescriptionEndpoint, pathOrDefault, hbeq, hstr]

/-- Witness: the hypotheses hold at a concrete domain, path and draw. -/
theorem did_and_endpoint_witness :
    (match generateKeyPair "example.com" (some "user:alice") .ED25519 tinyR with
      | .ok res => res
      | .error _ => default).did = "did:wba:example.com:user:alice" ∧
    (match generateKeyPair "example.com" none .ED25519 tinyR with
      | .ok res => res
      | .error _ => default).did = "did:wba:example.com" := by
  have h := did_and_endpoint "example.com" "user:alice" tinyR
    (match generateKeyPair "example.com" (some "user:alice") .ED25519 tinyR with
      | .ok res => res
      | .error _ => default)
    (match generateKeyPair "example.com" none .ED25519 tinyR with
      | .ok res => res
      | .error _ => default)
    (by decide) rfl rfl
  exact ⟨h.1, h.2.2.2.1⟩

/-- Counterexample to C7 as stated: with the empty path — a given path — the
DID drops the path separator entirely and the endpoint substitutes
`default`, contrary to the claimed `did:wba:<domain>:<path>` /
`.../agents/<path>/ad.json` shapes. -/
theorem empty_path_counterexample :
    generateDID "example.com" (some "") = "did:wba:example.com" ∧
    generateDID "example.com" (some "") ≠ "did:wba:example.com:" ∧
    agentDescriptionEndpoint "example.com" (some "")
      = "https://example.com/agents/default/ad.json" ∧
    agentDescriptionEndpoint "example.com" (some "")
      ≠ "https://example.com/agents//ad.json" :=
  ⟨by decide, by decide, by decide, by decide⟩

/-! ## DIDAutoConfig (did-auto-config.ts)

The class's mutable fields become a state record; `null` fields are `none`;
thrown errors are `Except.error` with the source's message; JS truthiness of
the string fields (`!this.autoDid` is `true` for both `null` and `""`) is
modelled explicitly. -/

structure ServiceEndpoint where
  id : String
  type : String
  serviceEndpoint : String
  description : Option String
deriving DecidableEq, Inhabited

structure AgentInterface where
  type : String
  description : String
  url : Option String
deriving DecidableEq, Inhabited

structure ConfigOptions where
  autoDID : Bool
  keyType : KeyType
  agentName : String
  agentDescription : String
  agentVersion : String
  interfaces : List AgentInterface
  serviceEndpoints : List ServiceEndpoint
  logLevel : String
deriving DecidableEq, Inhabited

/-- The defaults the constructor merges under the caller's options. -/
def defaultOptions : ConfigOptions :=
  { autoDID := true, keyType := .ED25519, agentName := "Auto-Configured ANP Agent",
    agentDescription := "Automatically configured ANP agent via SDK", agentVersion := "1.0.0",
    interfaces := [{ type := "NaturalLanguageInterface",
                     description := "Auto-configured natural language interface",
                     url := none }],
    serviceEndpoints := [], logLevel := "info" }

structure AdInterfaceOut where
  atType : String
  url : String
  description : String
deriving DecidableEq, Inhabited

structure AdCapability where
  atType : String
  name : String
  description : String
deriving DecidableEq, Inhabited

structure AdProtocol where
  atType : String
  name : String
  version : String
  description : String
deriving DecidableEq, Inhabited

/-- The non-cryptographic agent-description profile. -/
structure AgentDescriptionDoc where
  name : String
  did : Option String
  description : String
  version : String
  created : String
  interfaces : List AdInterfaceOut
  capabilities : List AdCapability
  supportedProtocols : List AdProtocol
deriving DecidableEq, Inhabited

structure ConfigState where
  options : ConfigOptions
  autoDid : Option String
  privateKey : Option String
  publicKey : Option String
  didDocument : Option DIDDocument
  agentDescription : Option AgentDescriptionDoc
deriving DecidableEq, Inhabited

structure DIDConfig where
  did : String
  privateKey : String
  publicKey : String
  didDocument : DIDDocument
  agentDescription : AgentDescriptionDoc
  keyType : KeyType
deriving DecidableEq, Inhabited

/-- A fresh instance: every identity field is `null`. -/
def initState (opts : ConfigOptions) : ConfigState :=
  { options := opts, autoDid := none, privateKey := none, publicKey := none,
    didDocument := none, agentDescription := none }

/-- Model of `DIDAutoConfig.getConfig`: throws unless every field is truthy. -/
def getConfig (st : ConfigState) : Except String DIDConfig :=
  match st.autoDid, st.privateKey, st.publicKey, st.didDocument, st.agentDescription with
  | some did, some pk, some pub, some doc, some ad =>
    if did == "" || pk == "" || pub == "" then
      .error "DID not configured yet. Call autoSetup() first."
    else
      .ok { did := did, privateKey := pk, publicKey := pub, didDocument := doc,
            agentDescription := ad, keyType := st.options.keyType }
  | _, _, _, _, _ => .error "DID not configured yet. Call autoSetup() first."

/-- Model of `DIDAutoConfig.getDID`. -/
def getDID (st : ConfigState) : Except String String :=
  match st.autoDid with
  | some did =>
    if did == "" then .error "DID not configured yet. Call autoSetup() first." else .ok did
  | none => .error "DID not configured yet. Call autoSetup() first."

/-- Model of `DIDAutoConfig.getPrivateKey`. -/
def getPrivateKey (st : ConfigState) : Except String String :=
  match st.privateKey with
  | some pk =>
    if pk == "" then .error "Private key not configured yet. Call autoSetup() first." else .ok pk
  | none => .error "Private key not configured yet. Call autoSetup() first."

/-- Model of `DIDAutoConfig.getPublicKey`. -/
def getPublicKey (st : ConfigState) : Except String String :=
  match st.publicKey with
  | some pub =>
    if pub == "" then .error "Public key not configured yet. Call autoSetup() first." else .ok pub
  | none => .error "Public key not configured yet. Call autoSetup() first."

/-- Model of `DIDAutoConfig.getDIDDocument` (an object is always truthy). -/
def getDIDDocument (st : ConfigState) : Except String DIDDocument :=
  match st.didDocument with
  | some doc => .ok doc
  | none => .error "DID document not configured yet. Call autoSetup() first."

/-- Model of `DIDAutoConfig.getAgentDescription`. -/
def getAgentDescription (st : ConfigState) : Except String AgentDescriptionDoc :=
  match st.agentDescription with
  | some ad => .ok ad
  | none => .error "Agent description not configured yet. Call autoSetup() first."

/-- The `port ? domain:port : domain` template (port `0` is falsy in JS). -/
def fullDomainOf (domain : String) (port : Option Nat) : String :=
  match port with
  | some p => if p == 0 then domain else domain ++ ":" ++ toString p
  | none => domain

/-- Model of `DIDAutoConfig.generateDIDAndKeys`: builds the generator on the
full domain with the fixed path `auto-agent`, stores the DID, PEM key and
parsed document, and copies `verificationMethod[0].publicKeyMultibase` into
`publicKey` — which is `undefined` when the method carries a JWK instead. -/
def generateDIDAndKeys (st : ConfigState) (domain : String) (port : Option Nat)
    (r : GenRand) : Except String ConfigState := do
  let fullDomain := fullDomainOf domain port
  let keyPair ← generateKeyPair fullDomain (some "auto-agent") st.options.keyType r
  let doc := keyPair.did_document
  let newPub : Option String :=
    match doc.verificationMethod.head? with
    | some vm0 => vm0.publicKeyMultibase
    | none => st.publicKey
  .ok { st with
        autoDid := some keyPair.did, privateKey := some keyPair.private_key,
        publicKey := newPub, didDocument := some doc }

/-- A configured endpoint as a service entry. -/
def mkServiceFromEndpoint (ep : ServiceEndpoint) : Service :=
  { id := ep.id, type := ep.type, serviceEndpoint := ep.serviceEndpoint,
    description := ep.description }

/-- The appended default ANP service entry. -/
def defaultServiceEntry : Service :=
  { id := "default", type := "ANPAgentService",
    serviceEndpoint := "http://localhost:3000/anp/api",
    description := some "Default ANP agent service endpoint" }

/-- Model of `DIDAutoConfig.configureDIDDocument`: a non-empty
`serviceEndpoints` option replaces `service` wholesale; otherwise the default
ANP entry is appended to the builder's list. -/
def configureDIDDocument (st : ConfigState) : Except String ConfigState :=
  match st.didDocument with
  | none => .error "DID document not generated yet"
  | some doc =>
    let doc1 := if 0 < st.options.serviceEndpoints.length
      then { doc with service := some (st.options.serviceEndpoints.map mkServiceFromEndpoint) }
      else doc
    let doc2 := match doc1.service with
      | none => { doc1 with service := some [] }
      | some _ => doc1
    let defaultEndpoint := st.options.serviceEndpoints.find? (fun ep => ep.id == "default")
    let doc3 := if defaultEndpoint.isNone ∧ st.options.serviceEndpoints.length = 0
      then { doc2 with service := some ((doc2.service.getD []) ++ [defaultServiceEntry]) }
      else doc2
    .ok { st with didDocument := some doc3 }

/-- Model of `DIDAutoConfig.getDefaultInterfaceUrl`. -/
def getDefaultInterfaceUrl (st : ConfigState) : String :=
  match st.didDocument with
  | some doc =>
    match doc.service with
    | some (s0 :: _) => s0.serviceEndpoint
    | _ => "http://localhost:3000/anp/api"
  | none => "http://localhost:3000/anp/api"

/-- The fixed capability entries. -/
def adCapabilities : List AdCapability :=
  [{ atType := "ad:Capability", name := "Natural Language Processing",
     description := "Process natural language requests and responses" },
   { atType := "ad:Capability", name := "HTTP Communication",
     description := "Communicate via HTTP protocol" }]

/-- The fixed protocol entries. -/
def adProtocols : List AdProtocol :=
  [{ atType := "ad:Protocol", name := "ANP", version := "1.0",
     description := "Agent Network Protocol" }]

/-- Model of `DIDAutoConfig.generateAgentDescription`; `now` is the ISO
string of `new Date()`. -/
def generateAgentDescription (st : ConfigState) (now : String) : ConfigState :=
  { st with agentDescription := some {
      name := st.options.agentName,
      did := st.autoDid,
      description := st.options.agentDescription,
      version := st.options.agentVersion,
      created := now,
      interfaces := st.options.interfaces.map (fun iface =>
        { atType := "ad:" ++ iface.type,
          url := match iface.url with
            | some u => if u == "" then getDefaultInterfaceUrl st else u
            | none => getDefaultInterfaceUrl st,
          description := iface.description }),
      capabilities := adCapabilities,
      supportedProtocols := adProtocols } }

/-- Model of `DIDAutoConfig.autoSetup`: generate keys, configure the
document, generate the description, and return `getConfig()`. -/
def autoSetup (st : ConfigState) (domain : String) (port : Option Nat) (r : GenRand)
    (now : String) : Except String (ConfigState × DIDConfig) := do
  let st1 ← generateDIDAndKeys st domain port r
  let st2 ← configureDIDDocument st1
  let st3 := generateAgentDescription st2 now
  let cfg ← getConfig st3
  .ok (st3, cfg)

/-- The update-or-insert on the service array. -/
def upsertService (svc : List Service) (ep : ServiceEndpoint) : List Service :=
  if svc.any (fun s => s.id == ep.id) then
    svc.set (svc.findIdx (fun s => s.id == ep.id)) (mkServiceFromEndpoint ep)
  else
    svc ++ [mkServiceFromEndpoint ep]

/-- Model of `DIDAutoConfig.updateServiceEndpoint`. -/
def updateServiceEndpoint (st : ConfigState) (ep : ServiceEndpoint) :
    Except String ConfigState :=
  match st.didDocument with
  | none => .error "DID document not configured yet"
  | some doc =>
    .ok { st with
          didDocument :=
            some { doc with service := some (upsertService (doc.service.getD []) ep) } }

/-! ## Claim C8 — accessors before and after autoSetup -/

/-- A successful `getConfig` makes every accessor succeed with the matching
configured value. -/
theorem accessors_of_getConfig {st : ConfigState} {cfg : DIDConfig}
    (h : getConfig st = .ok cfg) :
    getDID st = .ok cfg.did ∧ getPrivateKey st = .ok cfg.privateKey ∧
    getPublicKey st = .ok cfg.publicKey ∧ getDIDDocument st = .ok cfg.didDocument ∧
    getAgentDescription st = .ok cfg.agentDescription := by
  obtain ⟨o, a, p, pb, dd, ad⟩ := st
  cases a <;> cases p <;> cases pb <;> cases dd <;> cases ad <;>
    simp only [getConfig] at h <;> try exact Except.noConfusion h
  rename_i did pk pub doc adoc
  split_ifs at h with hcond
  simp only [Except.ok.injEq] at h
  simp only [Bool.not_eq_true, Bool.or_eq_false_iff] at hcond
  obtain ⟨⟨h1, h2⟩, h3⟩ := hcond
  rw [← h]
  exact ⟨by simp [getDID, h1], by simp [getPrivateKey, h2], by simp [getPublicKey, h3],
    rfl, rfl⟩

/-- Decompose a successful `autoSetup` into its three steps. -/
theorem autoSetup_ok_parts {st : ConfigState} {domain : String} {port : Option Nat}
    {r : GenRand} {now : String} {st3 : ConfigState} {cfg : DIDConfig}
    (h : autoSetup st domain port r now = .ok (st3, cfg)) :
    ∃ st1 st2, generateDIDAndKeys st domain port r = .ok st1 ∧
      configureDIDDocument st1 = .ok st2 ∧
      st3 = generateAgentDescription st2 now ∧
      getConfig st3 = .ok cfg := by
  unfold autoSetup at h
  cases h1 : generateDIDAndKeys st domain port r with
  | error e => rw [h1] at h; simp [Bind.bind, Except.bind] at h
  | ok st1 =>
    rw [h1] at h
    simp only [Bind.bind, Except.bind] at h
    cases h2 : configureDIDDocument st1 with
    | error e => rw [h2] at h; simp [Except.bind] at h
    | ok st2 =>
      rw [h2] at h
      simp only [Except.bind] at h
      cases h3 : getConfig (generateAgentDescription st2 now) with
      | error e => rw [h3] at h; simp [Except.bind] at h
      | ok cfg' =>
        rw [h3] at h
        simp only [Except.bind, Except.ok.injEq, Prod.mk.injEq] at h
        obtain ⟨hst, hcfg⟩ := h
        refine ⟨st1, st2, rfl, h2, hst.symm, ?_⟩
        rw [← hst, ← hcfg]
        exact h3

/-- C8: every accessor throws its not-configured error on a fresh instance,
and after a successful `autoSetup` each accessor succeeds with the
corresponding configured value — the failure is recoverable by retrying. -/
theorem accessors_before_and_after
    (opts : ConfigOptions) (st st3 : ConfigState) (cfg : DIDConfig)
    (domain : String) (port : Option Nat) (r : GenRand) (now : String)
    (h : autoSetup st domain port r now = .ok (st3, cfg)) :
    (getConfig (initState opts) = .error "DID not configured yet. Call autoSetup() first." ∧
     getDID (initState opts) = .error "DID not configured yet. Call autoSetup() first." ∧
     getPrivateKey (initState opts)
       = .error "Private key not configured yet. Call autoSetup() first." ∧
     getPublicKey (initState opts)
       = .error "Public key not configured yet. Call autoSetup() first." ∧
     getDIDDocument (initState opts)
       = .error "DID document not configured yet. Call autoSetup() first." ∧
     getAgentDescription (initState opts)
       = .error "Agent description not configured yet. Call autoSetup() first.") ∧
    (getConfig st3 = .ok cfg ∧
     getDID st3 = .ok cfg.did ∧
     getPrivateKey st3 = .ok cfg.privateKey ∧
     getPublicKey st3 = .ok cfg.publicKey ∧
     getDIDDocument st3 = .ok cfg.didDocument ∧
     getAgentDescription st3 = .ok cfg.agentDescription) := by
  obtain ⟨st1, st2, h1, h2, hst, h3⟩ := autoSetup_ok_parts h
  have hacc := accessors_of_getConfig h3
  exact ⟨⟨rfl, rfl, rfl, rfl, rfl, rfl⟩,
    h3, hacc.1, hacc.2.1, hacc.2.2.1, hacc.2.2.2.1, hacc.2.2.2.2⟩

/-- A concrete successful run for the witnesses. -/
def w8run : Except String (ConfigState × DIDConfig) :=
  autoSetup (initState defaultOptions) "example.com" none tinyR "2026-01-01T00:00:00.000Z"

/-- The state the concrete run produces. -/
def w8st : ConfigState :=
  match w8run with
  | .ok (st, _) => st
  | .error _ => initState defaultOptions

/-- The configuration the concrete run returns. -/
def w8cfg : DIDConfig :=
  match w8run with
  | .ok (_, cfg) => cfg
  | .error _ => default

/-- Witness: the concrete Ed25519 run completes and every accessor flips from
the not-configured error to the configured value. -/
theorem accessors_before_and_after_witness :
    (getConfig (initState defaultOptions)
       = .error "DID not configured yet. Call autoSetup() first." ∧
     getDID (initState defaultOptions)
       = .error "DID not configured yet. Call autoSetup() first." ∧
     getPrivateKey (initState defaultOptions)
       = .error "Private key not configured yet. Call autoSetup() first." ∧
     getPublicKey (initState defaultOptions)
       = .error "Public key not configured yet. Call autoSetup() first." ∧
     getDIDDocument (initState defaultOptions)
       = .error "DID document not configured yet. Call autoSetup() first." ∧
     getAgentDescription (initState defaultOptions)
       = .error "Agent description not configured yet. Call autoSetup() first.") ∧
    (getConfig w8st = .ok w8cfg ∧
     getDID w8st = .ok w8cfg.did ∧
     getPrivateKey w8st = .ok w8cfg.privateKey ∧
     getPublicKey w8st = .ok w8cfg.publicKey ∧
     getDIDDocument w8st = .ok w8cfg.didDocument ∧
     getAgentDescription w8st = .ok w8cfg.agentDescription) :=
  accessors_before_and_after defaultOptions (initState defaultOptions) w8st w8cfg
    "example.com" none tinyR "2026-01-01T00:00:00.000Z" rfl

/-! ## Claim C9 — updateServiceEndpoint is an upsert keyed by id -/

/-- C9: with a configured document, `updateServiceEndpoint` touches only the
service array — the returned state changes nothing but
`didDocument.service` — and the new array is the old one with the first
id-matching entry replaced in place (length unchanged) when a match exists,
or the old one with the new entry appended (length + 1) otherwise. -/
theorem updateServiceEndpoint_upsert (st : ConfigState) (doc : DIDDocument)
    (ep : ServiceEndpoint) (hdoc : st.didDocument = some doc) :
    updateServiceEndpoint st ep = .ok { st with
      didDocument := some { doc with
        service := some (upsertService (doc.service.getD []) ep) } } ∧
    ((doc.service.getD []).any (fun s => s.id == ep.id) = true →
      upsertService (doc.service.getD []) ep
        = (doc.service.getD []).set ((doc.service.getD []).findIdx (fun s => s.id == ep.id))
            (mkServiceFromEndpoint ep) ∧
      (upsertService (doc.service.getD []) ep).length = (doc.service.getD []).length) ∧
    ((doc.service.getD []).any (fun s => s.id == ep.id) = false →
      upsertService (doc.service.getD []) ep
        = (doc.service.getD []) ++ [mkServiceFromEndpoint ep] ∧
      (upsertService (doc.service.getD []) ep).length = (doc.service.getD []).length + 1) := by
  refine ⟨?_, ?_, ?_⟩
  · unfold updateServiceEndpoint
    rw [hdoc]
  · intro hany
    unfold upsertService
    rw [if_pos hany]
    exact ⟨rfl, by simp⟩
  · intro hany
    unfold upsertService
    rw [if_neg (by simp [hany])]
    exact ⟨rfl, by simp⟩

/-- A small configured document for the C9 witness. -/
def w9doc : DIDDocument :=
  { context := [], id := "did:wba:x", verificationMethod := [], authentication := [],
    keyAgreement := [], humanAuthorization := [],
    service := some [⟨"a", "T", "http://a", none⟩] }

/-- A state holding `w9doc`. -/
def w9st : ConfigState := { initState defaultOptions with didDocument := some w9doc }

/-- An endpoint whose id matches the existing entry. -/
def w9epHit : ServiceEndpoint := ⟨"a", "T2", "http://b", none⟩

/-- An endpoint with a fresh id. -/
def w9epNew : ServiceEndpoint := ⟨"z", "T3", "http://c", none⟩

/-- Witness: both branches of the upsert at concrete inputs. -/
theorem updateServiceEndpoint_upsert_witness :
    updateServiceEndpoint w9st w9epHit = .ok { w9st with
      didDocument := some { w9doc with
        service := some (upsertService (w9doc.service.getD []) w9epHit) } } ∧
    (upsertService (w9doc.service.getD []) w9epHit
        = (w9doc.service.getD []).set
            ((w9doc.service.getD []).findIdx (fun s => s.id == w9epHit.id))
            (mkServiceFromEndpoint w9epHit) ∧
      (upsertService (w9doc.service.getD []) w9epHit).length
        = (w9doc.service.getD []).length) ∧
    (upsertService (w9doc.service.getD []) w9epNew
        = (w9doc.service.getD []) ++ [mkServiceFromEndpoint w9epNew] ∧
      (upsertService (w9doc.service.getD []) w9epNew).length
        = (w9doc.service.getD []).length + 1) :=
  ⟨(updateServiceEndpoint_upsert w9st w9doc w9epHit rfl).1,
   (updateServiceEndpoint_upsert w9st w9doc w9epHit rfl).2.1 (by decide),
   (updateServiceEndpoint_upsert w9st w9doc w9epNew rfl).2.2 (by decide)⟩

/-! ## Claim C10 — the service array after autoSetup -/

/-- The builder's AgentDescription service entry. -/
def builderServiceEntry (domain : String) (path : Option String) : Service :=
  { id := generateDID domain path ++ "#agent-description", type := "AgentDescription",
    serviceEndpoint := agentDescriptionEndpoint domain path, description := none }

/-- From a stored document and a successful document accessor, the accessor
returns exactly the stored document. -/
theorem stored_document_eq {s : ConfigState} {d doc' : DIDDocument}
    (hs : s.didDocument = some doc') (hg : getDIDDocument s = .ok d) : doc' = d := by
  unfold getDIDDocument at hg
  rw [hs] at hg
  simpa using hg

/-- C10: after a successful `autoSetup` with no configured service endpoints,
the exposed document's service array is exactly the builder's
AgentDescription entry followed by the appended default ANP entry; with a
non-empty `serviceEndpoints` option the array is replaced wholesale by the
configured endpoints and the AgentDescription entry is dropped. -/
theorem service_entries_after_autoSetup
    (st st3 : ConfigState) (cfg : DIDConfig) (domain : String) (port : Option Nat)
    (r : GenRand) (now : String)
    (h : autoSetup st domain port r now = .ok (st3, cfg)) :
    (st.options.serviceEndpoints = [] →
      cfg.didDocument.service = some
        [builderServiceEntry (fullDomainOf domain port) (some "auto-agent"),
         defaultServiceEntry]) ∧
    (st.options.serviceEndpoints ≠ [] →
      cfg.didDocument.service
        = some (st.options.serviceEndpoints.map mkServiceFromEndpoint)) := by
  obtain ⟨st1, st2, h1, h2, hst, h3⟩ := autoSetup_ok_parts h
  have hdd := (accessors_of_getConfig h3).2.2.2.1
  have hst3 : st3.didDocument = st2.didDocument := by rw [hst]; rfl
  simp only [generateDIDAndKeys] at h1
  cases hk : generateKeyPair (fullDomainOf domain port) (some "auto-agent")
      st.options.keyType r with
  | error e => rw [hk] at h1; simp [Bind.bind, Except.bind] at h1
  | ok kp =>
    rw [hk] at h1
    simp only [Bind.bind, Except.bind, Except.ok.injEq] at h1
    have hsvc : kp.did_document.service
        = some [builderServiceEntry (fullDomainOf domain port) (some "auto-agent")] := by
      cases hkt : st.options.keyType with
      | ED25519 =>
        rw [hkt] at hk
        simp only [generateKeyPair, Except.ok.injEq] at hk
        rw [← hk]
        rfl
      | SECP256K1 =>
        rw [hkt] at hk
        simp only [generateKeyPair, Except.ok.injEq] at hk
        rw [← hk]
        rfl
      | X25519 =>
        rw [hkt] at hk
        exact absurd hk (by simp [generateKeyPair])
    have hopts : st1.options = st.options := by rw [← h1]
    have hdoc1 : st1.didDocument = some kp.did_document := by rw [← h1]
    unfold configureDIDDocument at h2
    rw [hdoc1, hopts] at h2
    constructor
    · intro hse
      rw [hse] at h2
      simp only [List.length_nil, Nat.lt_irrefl, if_false, List.find?_nil, Option.isNone_none,
        hsvc, Option.getD_some, true_and, if_true, Except.ok.injEq] at h2
      have hs2 : st2.didDocument = some { kp.did_document with
          service := some ([builderServiceEntry (fullDomainOf domain port) (some "auto-agent")]
            ++ [defaultServiceEntry]) } := by
        rw [← h2]
      have hfin := stored_document_eq (hst3.trans hs2) hdd
      rw [← hfin]
      rfl
    · intro hse
      have hlen : 0 < st.options.serviceEndpoints.length := List.length_pos.mpr hse
      have hne0 : st.options.serviceEndpoints.length ≠ 0 := by omega
      simp only [hlen, hne0, if_true, if_false, and_false, Except.ok.injEq] at h2
      have hs2 : st2.didDocument = some { kp.did_document with
          service := some (st.options.serviceEndpoints.map mkServiceFromEndpoint) } := by
        rw [← h2]
      have hfin := stored_document_eq (hst3.trans hs2) hdd
      rw [← hfin]

/-- Options with one configured service endpoint. -/
def w10opts : ConfigOptions :=
  { defaultOptions with serviceEndpoints := [⟨"svc1", "CustomService", "http://custom", none⟩] }

/-- A concrete run with configured endpoints. -/
def w10run : Except String (ConfigState × DIDConfig) :=
  autoSetup (initState w10opts) "example.com" none tinyR "2026-01-01T00:00:00.000Z"

/-- Its state. -/
def w10st : ConfigState :=
  match w10run with
  | .ok (st, _) => st
  | .error _ => initState w10opts

/-- Its configuration. -/
def w10cfg : DIDConfig :=
  match w10run with
  | .ok (_, cfg) => cfg
  | .error _ => default

/-- Witness: the concrete default run ends with the two-entry service array,
and the concrete configured run ends with the endpoints mapped wholesale. -/
theorem service_entries_after_autoSetup_witness :
    w8cfg.didDocument.service = some
      [builderServiceEntry (fullDomainOf "example.com" none) (some "auto-agent"),
       defaultServiceEntry] ∧
    w10cfg.didDocument.service
      = some (w10opts.serviceEndpoints.map mkServiceFromEndpoint) :=
  ⟨(service_entries_after_autoSetup (initState defaultOptions) w8st w8cfg "example.com" none
      tinyR "2026-01-01T00:00:00.000Z" rfl).1 rfl,
   (service_entries_after_autoSetup (initState w10opts) w10st w10cfg "example.com" none
      tinyR "2026-01-01T00:00:00.000Z" rfl).2 (by decide)⟩
